import Mathlib

set_option maxHeartbeats 1000000

/-!
Verification of the wazuh security-event engine core: a shallow embedding of
the helper builders in `opBuilderHelperFilter.cpp`, the parameter processing in
`baseHelper.cpp`, the string utilities in `stringUtils.cpp`, and (modelled from
the specification, since their sources are not part of this tree) the JSON
document accessor, the policy composer and the `wdb_update` helper.

Machine integers: the C++ helpers compare `int` values without arithmetic, so
`Int` is used directly; the IPv4 helper works modulo 2^32, made explicit below.
C++ `std::string` ordering is byte-lexicographic on UTF-8 bytes, which agrees
with the codepoint-lexicographic order of Lean `String`.
-/

/-- JSON value tree, the document type behind `json::Json` events. -/
inductive JValue where
  | null : JValue
  | bool (b : Bool) : JValue
  | num (n : Int) : JValue
  | str (s : String) : JValue
  | arr (elems : List JValue) : JValue
  | obj (fields : List (String × JValue)) : JValue
deriving Repr

mutual

/-- Structural equality of JSON values, mirroring `json::Json::operator==`. -/
def jeq : JValue → JValue → Bool
  | .null, .null => true
  | .bool a, .bool b => a == b
  | .num a, .num b => a == b
  | .str a, .str b => a == b
  | .arr a, .arr b => jeqList a b
  | .obj a, .obj b => jeqFields a b
  | _, _ => false

/-- Elementwise equality of JSON arrays. -/
def jeqList : List JValue → List JValue → Bool
  | [], [] => true
  | a :: as, b :: bs => jeq a b && jeqList as bs
  | _, _ => false

/-- Fieldwise equality of JSON objects (field order significant). -/
def jeqFields : List (String × JValue) → List (String × JValue) → Bool
  | [], [] => true
  | (ka, va) :: as, (kb, vb) :: bs => ka == kb && jeq va vb && jeqFields as bs
  | _, _ => false

end

/-- Prepend a character onto the first segment of a segmentation, creating the
segment when there is none. -/
def consOnHead (c : Char) : List (List Char) → List (List Char)
  | [] => [[c]]
  | seg :: rest => (c :: seg) :: rest

/-- Full single-character splitting in the usual `splitOn` sense: every
delimiter separates two (possibly empty) segments, so a trailing delimiter
yields a trailing empty segment. -/
def fullSplit (d : Char) : List Char → List (List Char)
  | [] => [[]]
  | c :: cs => if c = d then [] :: fullSplit d cs else consOnHead c (fullSplit d cs)

/-- Single-character `String.splitOn`, as a kernel-reducible function. -/
def splitOnChar (s : String) (d : Char) : List String :=
  (fullSplit d s.data).map (fun cs => String.mk cs)

/-- Modelled from the spec: a JSON pointer path such as `/a/b` names the chain
of object keys `a`, `b` (spec section 3, the JSON document collaborator). -/
def pathSegments (path : String) : List String :=
  if path = "" then [] else (splitOnChar path '/').drop 1

/-- First value bound to a key in a JSON object field list. -/
def lookupField (fields : List (String × JValue)) (key : String) : Option JValue :=
  match fields with
  | [] => none
  | (k, v) :: rest => if k = key then some v else lookupField rest key

/-- Walk a JSON value down a list of object keys. -/
def getSegs (j : JValue) : List String → Option JValue
  | [] => some j
  | s :: rest =>
    match j with
    | .obj fields =>
      match lookupField fields s with
      | some v => getSegs v rest
      | none => none
    | _ => none

/-- Replace the binding of a key in an object field list (append if absent),
applying `f` to the previous value (`JValue.null` when absent). -/
def updateField (key : String) (f : JValue → JValue) : List (String × JValue) → List (String × JValue)
  | [] => [(key, f .null)]
  | (k, w) :: tail => if k = key then (k, f w) :: tail else (k, w) :: updateField key f tail

/-- Modelled from the spec: pointer-path write creating missing parents as
objects (the `set_bool` / `set_string` capability of the document accessor). -/
def setSegs : List String → JValue → JValue → JValue
  | [], _, v => v
  | s :: rest, j, v =>
    match j with
    | .obj fields => .obj (updateField s (fun old => setSegs rest old v) fields)
    | _ => .obj (updateField s (fun old => setSegs rest old v) [])

/-- An event: a reference-counted mutable JSON document. `refId` stands for the
`shared_ptr` identity, which every accessor and mutator leaves untouched. -/
structure Event where
  refId : Nat
  doc : JValue
deriving Repr

/-- Pointer-path read of a raw JSON value (`json::Json::getJson`). -/
def Event.getJson (e : Event) (path : String) : Option JValue :=
  getSegs e.doc (pathSegments path)

/-- Pointer-path existence test (`json::Json::exists`). -/
def Event.existsPath (e : Event) (path : String) : Bool :=
  (e.getJson path).isSome

/-- Typed integer read (`json::Json::getInt`): `some` only on integer values. -/
def Event.getInt (e : Event) (path : String) : Option Int :=
  match e.getJson path with
  | some (.num n) => some n
  | _ => none

/-- Typed string read (`json::Json::getString`). -/
def Event.getString (e : Event) (path : String) : Option String :=
  match e.getJson path with
  | some (.str s) => some s
  | _ => none

/-- Typed boolean read (`json::Json::getBool`). -/
def Event.getBool (e : Event) (path : String) : Option Bool :=
  match e.getJson path with
  | some (.bool b) => some b
  | _ => none

/-- Typed array read (`json::Json::getArray`). -/
def Event.getArray (e : Event) (path : String) : Option (List JValue) :=
  match e.getJson path with
  | some (.arr xs) => some xs
  | _ => none

/-- Type predicate: the value at `path` is a number. -/
def Event.isNumberAt (e : Event) (path : String) : Bool :=
  match e.getJson path with
  | some (.num _) => true
  | _ => false

/-- Type predicate: the value at `path` is a string. -/
def Event.isStringAt (e : Event) (path : String) : Bool :=
  match e.getJson path with
  | some (.str _) => true
  | _ => false

/-- Type predicate: the value at `path` is a boolean. -/
def Event.isBoolAt (e : Event) (path : String) : Bool :=
  match e.getJson path with
  | some (.bool _) => true
  | _ => false

/-- Type predicate: the value at `path` is an array. -/
def Event.isArrayAt (e : Event) (path : String) : Bool :=
  match e.getJson path with
  | some (.arr _) => true
  | _ => false

/-- Type predicate: the value at `path` is an object. -/
def Event.isObjectAt (e : Event) (path : String) : Bool :=
  match e.getJson path with
  | some (.obj _) => true
  | _ => false

/-- Type predicate: the value at `path` is null. -/
def Event.isNullAt (e : Event) (path : String) : Bool :=
  match e.getJson path with
  | some .null => true
  | _ => false

/-- Pointer-path boolean write (`json::Json::setBool`); the document changes in
place, so the reference identity `refId` is preserved. -/
def Event.setBool (e : Event) (path : String) (b : Bool) : Event :=
  { e with doc := setSegs (pathSegments path) e.doc (.bool b) }

/-- Result of one `Term` operation: `base::result::Result<base::Event>`. -/
structure RunResult where
  ok : Bool
  event : Event
  trace : String
deriving Repr

/-- Successful result carrying the event (`base::result::makeSuccess`). -/
def makeSuccess (e : Event) (t : String) : RunResult := ⟨true, e, t⟩

/-- Failed result still carrying the event (`base::result::makeFailure`). -/
def makeFailure (e : Event) (t : String) : RunResult := ⟨false, e, t⟩

/-- Parameter kind: literal value or `$`-reference (`helper::base::Parameter::Type`). -/
inductive ParamType where
  | VALUE : ParamType
  | REFERENCE : ParamType
deriving DecidableEq, Repr

/-- Parsed helper parameter (`helper::base::Parameter`): for a REFERENCE,
`m_value` holds the translated JSON pointer path. -/
structure Parameter where
  m_type : ParamType
  m_value : String
deriving DecidableEq, Repr

/-- Comparison operators of the helper family (`builders::Operator`). -/
inductive Operator where
  | EQ : Operator
  | NE : Operator
  | GT : Operator
  | GE : Operator
  | LT : Operator
  | LE : Operator
  | ST : Operator
  | CN : Operator
deriving DecidableEq, Repr

/-- Whitespace by `isspace` in the default locale, as skipped by `std::stoi`. -/
def isCppSpace (c : Char) : Bool :=
  c = ' ' || c = '\t' || c = '\n' || c = '\x0b' || c = '\x0c' || c = '\r'

/-- Drop leading `isspace` characters. -/
def dropCppSpace : List Char → List Char
  | [] => []
  | c :: rest => if isCppSpace c then dropCppSpace rest else c :: rest

/-- True when `std::stoi` finds a digit after optional whitespace and sign,
i.e. it does not throw `std::invalid_argument`. -/
def stoiParses (s : String) : Bool :=
  match dropCppSpace s.data with
  | [] => false
  | c :: rest =>
    if c = '+' || c = '-' then
      match rest with
      | [] => false
      | d :: _ => d.isDigit
    else c.isDigit

/-- Numeric value of the longest digit run at the head of the list. -/
def digitRunVal (cs : List Char) : Nat :=
  (cs.takeWhile Char.isDigit).foldl (fun acc c => acc * 10 + (c.toNat - 48)) 0

/-- Value computed by `std::stoi`: optional whitespace, optional sign, longest
digit run; `none` when it throws (`invalid_argument` or 32-bit `out_of_range`). -/
def cppStoi (s : String) : Option Int :=
  match dropCppSpace s.data with
  | [] => none
  | c :: rest =>
    let neg := c = '-'
    let ds := if c = '-' || c = '+' then rest else c :: rest
    match ds with
    | [] => none
    | d :: _ =>
      if d.isDigit then
        let mag : Int := Int.ofNat (digitRunVal ds)
        let v := if neg then -mag else mag
        if -(2 ^ 31) ≤ v ∧ v ≤ 2 ^ 31 - 1 then some v else none
      else none

/-- Integer comparison selected by `getIntCmpFunction`. `ST` and `CN` are never
instantiated at `Type::INT` by any builder (the C++ switch leaves `cmpFunction`
empty for them); they are mapped to `false` here. -/
def intCmpApply (op : Operator) (l r : Int) : Bool :=
  match op with
  | .EQ => l == r
  | .NE => l != r
  | .GT => decide (l > r)
  | .GE => decide (l ≥ r)
  | .LT => decide (l < r)
  | .LE => decide (l ≤ r)
  | .ST => false
  | .CN => false

/-- Head-of-list match: the second list is an initial segment of the first. -/
def headMatches : List Char → List Char → Bool
  | _, [] => true
  | [], _ :: _ => false
  | a :: as, b :: bs => a = b && headMatches as bs

/-- Substring occurrence test, mirroring `std::string::find != npos`. -/
def hasSub (r : List Char) : List Char → Bool
  | [] => r.isEmpty
  | c :: tail => headMatches (c :: tail) r || hasSub r tail

/-- Lexicographic strict order on character lists: the order of
`std::string::operator<` (bytewise comparison, which on UTF-8 agrees with
codepoint comparison). -/
def lexLt : List Char → List Char → Bool
  | [], [] => false
  | [], _ :: _ => true
  | _ :: _, [] => false
  | a :: as, b :: bs => if a < b then true else if b < a then false else lexLt as bs

/-- String comparison selected by `getStringCmpFunction`: byte-lexicographic
order (`l > r` is `r < l` and `l ≥ r` is `not (l < r)`, as for any total
order), `ST` is `l.substr(0, r.length) == r`, `CN` is containment with empty
right operand mapped to failure. -/
def strCmpApply (op : Operator) (l r : String) : Bool :=
  match op with
  | .EQ => l == r
  | .NE => l != r
  | .GT => lexLt r.data l.data
  | .GE => ! lexLt l.data r.data
  | .LT => lexLt l.data r.data
  | .LE => ! lexLt r.data l.data
  | .ST => List.take r.length l.data == r.data
  | .CN => if r != "" then hasSub r.data l.data else false

/-- Success trace `[name] -> Success` shared by the filter helpers. -/
def successTraceOf (name : String) : String :=
  "[" ++ name ++ "] -> Success"

/-- Failure trace `[name] -> Failure: Target field <tf> not found`. -/
def targetNotFoundTrace (name targetField : String) : String :=
  "[" ++ name ++ "] -> Failure: Target field \x27" ++ targetField ++ "\x27 not found"

/-- Failure trace `[name] -> Failure: Parameter <v> not found`. -/
def paramNotFoundTrace (name value : String) : String :=
  "[" ++ name ++ "] -> Failure: Parameter \"" ++ value ++ "\" not found"

/-- Failure trace `[name] -> Failure: Comparison is false`. -/
def cmpFalseTrace (name : String) : String :=
  "[" ++ name ++ "] -> Failure: Comparison is false"

/-- Right operand stored by `getIntCmpFunction`: the C++ keeps a
`std::variant` of the reference path or the converted integer. -/
inductive IntOperand where
  | ref (path : String) : IntOperand
  | val (n : Int) : IntOperand
deriving Repr

/-- Evaluation lambda returned by `getIntCmpFunction`: read `targetField` as
int (missing or non-int gives the target-not-found failure), resolve a
REFERENCE operand as int (missing gives the parameter-not-found failure), then
succeed exactly when the comparison holds. -/
def intCmpExec (targetField : String) (op : Operator) (rValue : IntOperand) (name : String) (event : Event) : RunResult :=
  match event.getInt targetField with
  | none => makeFailure event (targetNotFoundTrace name targetField)
  | some lValue =>
    match rValue with
    | .ref path =>
      match event.getInt path with
      | none => makeFailure event (paramNotFoundTrace name path)
      | some resolved =>
        if intCmpApply op lValue resolved then makeSuccess event (successTraceOf name)
        else makeFailure event (cmpFalseTrace name)
    | .val v =>
      if intCmpApply op lValue v then makeSuccess event (successTraceOf name)
      else makeFailure event (cmpFalseTrace name)

/-- Build-time part of `getIntCmpFunction`: a VALUE operand goes through
`std::stoi`, and a conversion failure is a build error (`std::runtime_error`). -/
def getIntCmpFunction (targetField : String) (op : Operator) (rightParameter : Parameter) (name : String) : Except String (Event → RunResult) :=
  match rightParameter.m_type with
  | .VALUE =>
    match cppStoi rightParameter.m_value with
    | none =>
      Except.error ("\"" ++ name ++ "\" function: Parameter \"" ++ rightParameter.m_value ++ "\" could not be converted to int.")
    | some n => Except.ok (intCmpExec targetField op (.val n) name)
  | .REFERENCE => Except.ok (intCmpExec targetField op (.ref rightParameter.m_value) name)

/-- Failure trace of `validateNumericString` when a string is present but not
numeric. -/
def numericArgsInvalidTrace (name targetField value : String) : String :=
  "[" ++ name ++ "] -> Failure: Target field \x27" ++ targetField ++ "\x27 or Parameter \"" ++ value ++ "\" have no valid arguments"

/-- Failure trace of `validateNumericString` when a string is missing. -/
def numericNotFoundTrace (name targetField value : String) : String :=
  "[" ++ name ++ "] -> Failure: Target field \x27" ++ targetField ++ "\x27 or Parameter \"" ++ value ++ "\" not found"

/-- Evaluation lambda returned by `getStringCmpFunction`, including its
numeric-validation branch: `validateNumericString` on the target string, a bare
`std::stoi` on the raw right operand (whose `invalid_argument` message is
`stoi`), and for a REFERENCE `validateNumericString` again on the resolved
string; only then the lexicographic comparison. An uncaught 32-bit
`out_of_range` from `stoi` is outside this model. -/
def stringCmpExec (targetField : String) (op : Operator) (rightParameter : Parameter) (name : String) (event : Event) : RunResult :=
  let rValue := rightParameter.m_value
  match event.getString targetField with
  | none => makeFailure event (numericNotFoundTrace name targetField rValue)
  | some lValue =>
    if ¬ stoiParses lValue then
      makeFailure event (numericArgsInvalidTrace name targetField rValue)
    else if ¬ stoiParses rValue then
      makeFailure event "stoi"
    else
      match rightParameter.m_type with
      | .REFERENCE =>
        match event.getString rValue with
        | none => makeFailure event (numericNotFoundTrace name targetField rValue)
        | some resolved =>
          if ¬ stoiParses resolved then
            makeFailure event (numericArgsInvalidTrace name targetField rValue)
          else if strCmpApply op lValue resolved then makeSuccess event (successTraceOf name)
          else makeFailure event (cmpFalseTrace name)
      | .VALUE =>
        if strCmpApply op lValue rValue then makeSuccess event (successTraceOf name)
        else makeFailure event (cmpFalseTrace name)

/-- Purely lexicographic string comparison, as the specification words it
(ordering is byte-lexicographic, no numeric validation); stated for comparison
with `stringCmpExec`, which is what the source implements. -/
def stringCmpSpecExec (targetField : String) (op : Operator) (rightParameter : Parameter) (name : String) (event : Event) : RunResult :=
  match event.getString targetField with
  | none => makeFailure event (targetNotFoundTrace name targetField)
  | some lValue =>
    let resolved : Option String :=
      match rightParameter.m_type with
      | .VALUE => some rightParameter.m_value
      | .REFERENCE => event.getString rightParameter.m_value
    match resolved with
    | none => makeFailure event (paramNotFoundTrace name rightParameter.m_value)
    | some rv =>
      if strCmpApply op lValue rv then makeSuccess event (successTraceOf name)
      else makeFailure event (cmpFalseTrace name)

/-- Failure trace `[name] -> Failure: Target field <tf> <what>` used by the
type-test helpers for a present field of the wrong type or value. -/
def wrongTypeTrace (name targetField what : String) : String :=
  "[" ++ name ++ "] -> Failure: Target field \x27" ++ targetField ++ "\x27 " ++ what

/-- Common shape of the twelve existence-guarded type-test helpers: if the
target exists, test it (wrong type gives `wrongT`); otherwise fail with
`missingT`. -/
def typeFilterExec (test : Event → String → Bool) (targetField : String) (successT wrongT missingT : String) (event : Event) : RunResult :=
  if event.existsPath targetField then
    if test event targetField then makeSuccess event successT
    else makeFailure event wrongT
  else makeFailure event missingT

/-- Term operation of `opBuilderHelperIsNumber`. -/
def isNumberExec (targetField name : String) : Event → RunResult :=
  typeFilterExec (fun e f => e.isNumberAt f) targetField (successTraceOf name)
    (wrongTypeTrace name targetField "is not a number") (targetNotFoundTrace name targetField)

/-- Term operation of `opBuilderHelperIsNotNumber`. -/
def isNotNumberExec (targetField name : String) : Event → RunResult :=
  typeFilterExec (fun e f => ! e.isNumberAt f) targetField (successTraceOf name)
    (wrongTypeTrace name targetField "is a number") (targetNotFoundTrace name targetField)

/-- Term operation of `opBuilderHelperIsString`. -/
def isStringExec (targetField name : String) : Event → RunResult :=
  typeFilterExec (fun e f => e.isStringAt f) targetField (successTraceOf name)
    (wrongTypeTrace name targetField "is not a string") (targetNotFoundTrace name targetField)

/-- Term operation of `opBuilderHelperIsNotString`. -/
def isNotStringExec (targetField name : String) : Event → RunResult :=
  typeFilterExec (fun e f => ! e.isStringAt f) targetField (successTraceOf name)
    (wrongTypeTrace name targetField "is a string") (targetNotFoundTrace name targetField)

/-- Term operation of `opBuilderHelperIsBool`. -/
def isBoolExec (targetField name : String) : Event → RunResult :=
  typeFilterExec (fun e f => e.isBoolAt f) targetField (successTraceOf name)
    (wrongTypeTrace name targetField "is not a boolean") (targetNotFoundTrace name targetField)

/-- Term operation of `opBuilderHelperIsNotBool`. -/
def isNotBoolExec (targetField name : String) : Event → RunResult :=
  typeFilterExec (fun e f => ! e.isBoolAt f) targetField (successTraceOf name)
    (wrongTypeTrace name targetField "is a boolean") (targetNotFoundTrace name targetField)

/-- Term operation of `opBuilderHelperIsArray`. -/
def isArrayExec (targetField name : String) : Event → RunResult :=
  typeFilterExec (fun e f => e.isArrayAt f) targetField (successTraceOf name)
    (wrongTypeTrace name targetField "is not an array") (targetNotFoundTrace name targetField)

/-- Term operation of `opBuilderHelperIsNotArray`. -/
def isNotArrayExec (targetField name : String) : Event → RunResult :=
  typeFilterExec (fun e f => ! e.isArrayAt f) targetField (successTraceOf name)
    (wrongTypeTrace name targetField "is an array") (targetNotFoundTrace name targetField)

/-- Term operation of `opBuilderHelperIsObject`. -/
def isObjectExec (targetField name : String) : Event → RunResult :=
  typeFilterExec (fun e f => e.isObjectAt f) targetField (successTraceOf name)
    (wrongTypeTrace name targetField "is not an object") (targetNotFoundTrace name targetField)

/-- Term operation of `opBuilderHelperIsNotObject`. -/
def isNotObjectExec (targetField name : String) : Event → RunResult :=
  typeFilterExec (fun e f => ! e.isObjectAt f) targetField (successTraceOf name)
    (wrongTypeTrace name targetField "is an object") (targetNotFoundTrace name targetField)

/-- Term operation of `opBuilderHelperIsNull`. -/
def isNullExec (targetField name : String) : Event → RunResult :=
  typeFilterExec (fun e f => e.isNullAt f) targetField (successTraceOf name)
    (wrongTypeTrace name targetField "is not null") (targetNotFoundTrace name targetField)

/-- Term operation of `opBuilderHelperIsNotNull`. -/
def isNotNullExec (targetField name : String) : Event → RunResult :=
  typeFilterExec (fun e f => ! e.isNullAt f) targetField (successTraceOf name)
    (wrongTypeTrace name targetField "is null") (targetNotFoundTrace name targetField)

/-- Term operation of `opBuilderHelperIsTrue`: drives on `getBool`, so a
present non-boolean field takes the same branch as an absent field. -/
def isTrueExec (targetField name : String) (event : Event) : RunResult :=
  match event.getBool targetField with
  | some b =>
    if b then makeSuccess event (successTraceOf name)
    else makeFailure event (wrongTypeTrace name targetField "is false")
  | none => makeFailure event (targetNotFoundTrace name targetField)

/-- Term operation of `opBuilderHelperIsFalse`: drives on `getBool`, so a
present non-boolean field takes the same branch as an absent field. -/
def isFalseExec (targetField name : String) (event : Event) : RunResult :=
  match event.getBool targetField with
  | some b =>
    if ! b then makeSuccess event (successTraceOf name)
    else makeFailure event (wrongTypeTrace name targetField "is true")
  | none => makeFailure event (targetNotFoundTrace name targetField)

/-- Term operation of `opBuilderHelperExists`. -/
def existsExec (targetField name : String) (event : Event) : RunResult :=
  if event.existsPath targetField then makeSuccess event (successTraceOf name)
  else makeFailure event ("[" ++ name ++ "] -> Failure: Target field \x27" ++ targetField ++ "\x27 does not exist")

/-- Term operation of `opBuilderHelperNotExists`. -/
def notExistsExec (targetField name : String) (event : Event) : RunResult :=
  if ! event.existsPath targetField then makeSuccess event (successTraceOf name)
  else makeFailure event ("[" ++ name ++ "] -> Failure: Target field \x27" ++ targetField ++ "\x27 does exist")

/-- Term operation of `opBuilderHelperRegexMatch`; the compiled RE2 partial
match is abstracted as the oracle `matcher`, since only the read/branch
structure matters here. -/
def regexMatchExec (matcher : String → Bool) (targetField name : String) (event : Event) : RunResult :=
  match event.getString targetField with
  | none => makeFailure event (targetNotFoundTrace name targetField)
  | some s =>
    if matcher s then makeSuccess event (successTraceOf name)
    else makeFailure event ("[" ++ name ++ "] -> Failure: Regex did not match")

/-- Term operation of `opBuilderHelperRegexNotMatch`. -/
def regexNotMatchExec (matcher : String → Bool) (targetField name : String) (event : Event) : RunResult :=
  match event.getString targetField with
  | none => makeFailure event (targetNotFoundTrace name targetField)
  | some s =>
    if ! matcher s then makeSuccess event (successTraceOf name)
    else makeFailure event ("[" ++ name ++ "] -> Failure: Regex did match")

/-- Modelled from the spec: dotted-quad IPv4 text to a 32-bit unsigned value
(`utils::ip::IPv4ToUInt`, whose source is not part of this tree). -/
def parseOctet (s : String) : Option Nat :=
  if s ≠ "" ∧ s.data.all Char.isDigit then
    let v := digitRunVal s.data
    if v ≤ 255 then some v else none
  else none

/-- Modelled from the spec: parse `a.b.c.d` with each octet in 0..255. -/
def parseIPv4 (s : String) : Option Nat :=
  match splitOnChar s '.' with
  | [a, b, c, d] =>
    match parseOctet a, parseOctet b, parseOctet c, parseOctet d with
    | some x, some y, some z, some w => some (x * 2 ^ 24 + y * 2 ^ 16 + z * 2 ^ 8 + w)
    | _, _, _, _ => none
  | _ => none

/-- Modelled from the spec: masks accepted either as a prefix length (0..32)
or as a dotted quad (`utils::ip::IPv4MaskUInt`). -/
def parseIPv4Mask (s : String) : Option Nat :=
  if s ≠ "" ∧ s.data.all Char.isDigit then
    let n := digitRunVal s.data
    if n ≤ 32 then some (2 ^ 32 - 2 ^ (32 - n)) else none
  else parseIPv4 s

/-- Bitwise complement on 32-bit unsigned values (`~mask` in C++): flipping
every bit of `m < 2^32` yields `2^32 - 1 - m`. -/
def comp32 (m : Nat) : Nat := 2 ^ 32 - 1 - m

/-- Evaluation lambda of `opBuilderHelperIPCIDR`: read the target as string,
parse it as IPv4 (failure with trace on error), succeed exactly when
`net_lower <= ip && ip <= net_upper`. -/
def ipCidrExec (targetField name : String) (netLower netUpper : Nat) (event : Event) : RunResult :=
  match event.getString targetField with
  | none => makeFailure event (targetNotFoundTrace name targetField)
  | some s =>
    match parseIPv4 s with
    | none =>
      makeFailure event ("[" ++ name ++ "] -> Failure: IPv4 address \x27" ++ s ++ "\x27 could not be converted to int")
    | some ip =>
      if netLower ≤ ip ∧ ip ≤ netUpper then makeSuccess event (successTraceOf name)
      else makeFailure event ("[" ++ name ++ "] -> Failure: IP address is not in CIDR")

/-- Build-time part of `opBuilderHelperIPCIDR`: parse network and mask (build
error on failure), then `net_lower = network & mask` and
`net_upper = net_lower | ~mask` over 32-bit unsigned integers. -/
def opBuilderHelperIPCIDR (targetField : String) (networkArg maskArg : String) (name : String) : Except String (Event → RunResult) :=
  match parseIPv4 networkArg with
  | none => Except.error ("\"" ++ name ++ "\" function: IPv4 address could not be converted to int")
  | some network =>
    match parseIPv4Mask maskArg with
    | none => Except.error ("\"" ++ name ++ "\" function: IPv4 Mask \"" ++ maskArg ++ "\" could not be converted to int")
    | some mask =>
      let netLower := Nat.land network mask
      let netUpper := Nat.lor netLower (comp32 mask)
      Except.ok (ipCidrExec targetField name netLower netUpper)

/-- Parameter scan of `opBuilderHelperContainsString`: a missing REFERENCE is
silently skipped (`continue`); otherwise success as soon as the array holds a
JSON value equal to the resolved comparison value. -/
def arrayContainsLoop (event : Event) (resolvedArray : List JValue) : List Parameter → Bool
  | [] => false
  | p :: ps =>
    match p.m_type with
    | .REFERENCE =>
      match event.getJson p.m_value with
      | none => arrayContainsLoop event resolvedArray ps
      | some v =>
        if resolvedArray.any (fun x => jeq x v) then true
        else arrayContainsLoop event resolvedArray ps
    | .VALUE =>
      if resolvedArray.any (fun x => jeq x (.str p.m_value)) then true
      else arrayContainsLoop event resolvedArray ps

/-- Term operation of `opBuilderHelperContainsString` (`array_contains`). -/
def arrayContainsExec (targetField name : String) (parameters : List Parameter) (event : Event) : RunResult :=
  if ! event.existsPath targetField then makeFailure event (targetNotFoundTrace name targetField)
  else
    match event.getArray targetField with
    | none => makeFailure event (wrongTypeTrace name targetField "is not an array")
    | some resolvedArray =>
      if arrayContainsLoop event resolvedArray parameters then makeSuccess event (successTraceOf name)
      else
        makeFailure event ("[" ++ name ++ "] -> Failure: Target array \x27" ++ targetField ++ "\x27 does not contain any of the parameters")

/-- Modelled from the spec: a wazuh-db reply counts as positive exactly when it
begins with `ok`, alone or followed by whitespace and a payload. -/
def okReply (r : String) : Bool :=
  match r.data with
  | 'o' :: 'k' :: [] => true
  | 'o' :: 'k' :: c :: _ => c.isWhitespace
  | _ => false

/-- Modelled from the spec: term operation of `opBuilderWdbUpdate` (its source
is not part of this tree; behavior follows spec section 4.3 and its tests).
The socket exchange is the oracle `sock`; `none` stands for an I/O error. The
request string is the literal or the referenced string field; a missing
reference or an empty request string is a failure. Otherwise the verdict
`okReply` is written to `targetField` as a boolean and the term succeeds. -/
def wdbUpdateExec (targetField : String) (param : Parameter) (sock : String → Option String) (name : String) (event : Event) : RunResult :=
  let query : Option String :=
    match param.m_type with
    | .VALUE => some param.m_value
    | .REFERENCE => event.getString param.m_value
  match query with
  | none => makeFailure event ("[" ++ name ++ "] -> Failure: The query could not be resolved")
  | some q =>
    if q = "" then makeFailure event ("[" ++ name ++ "] -> Failure: The query is empty")
    else
      match sock q with
      | none => makeFailure event ("[" ++ name ++ "] -> Failure: Socket communication error")
      | some reply => makeSuccess (event.setBool targetField (okReply reply)) (successTraceOf name)

/-- Modelled from the spec: `json::Json::formatJsonPath` (source not in this
tree): the dotted remainder of a reference becomes a JSON pointer path with
`.` as sub-key separator; an empty remainder is rejected. -/
def formatJsonPath (dotted : String) : Option String :=
  if dotted = "" then none
  else some ("/" ++ String.intercalate "/" (splitOnChar dotted '.'))

/-- One token of `helper::base::processParameters`: a token whose first
character is the reference anchor `$` becomes a REFERENCE holding the
translated pointer path (build error if translation fails); any other token
becomes a VALUE holding the token unchanged. -/
def processParameter (token : String) : Except String Parameter :=
  match token.data with
  | '$' :: rest =>
    match formatJsonPath (String.mk rest) with
    | none => Except.error ("Cannot format parameter \"" ++ token ++ "\" from to Json pointer path")
    | some p => Except.ok ⟨.REFERENCE, p⟩
  | _ => Except.ok ⟨.VALUE, token⟩

/-- Direct translation of `base::utils::string::split`: repeatedly find the
delimiter, push the segment before it, continue after it; at the end the
remainder is pushed only when non-empty (strings as character lists). -/
def split (s : List Char) (d : Char) : List (List Char) :=
  match h : s.findIdx? (fun c => c = d) with
  | none => if s.isEmpty then [] else [s]
  | some pos => s.take pos :: split (s.drop (pos + 1)) d
termination_by s.length
decreasing_by
  have hne : s ≠ [] := by
    intro hs
    rw [hs] at h
    simp [List.findIdx?] at h
  simp only [List.length_drop]
  exact Nat.sub_lt (List.length_pos.mpr hne) (Nat.succ_pos pos)

/-- Character-by-character restatement of `split` (proved equal below). -/
def splitCW (d : Char) : List Char → List (List Char)
  | [] => []
  | c :: cs => if c = d then [] :: splitCW d cs else consOnHead c (splitCW d cs)

/-- Direct translation of `base::utils::string::join`: append the separator
before every element except, when `startsWithSeparator` is false, the first. -/
def join (strVector : List (List Char)) (separator : List Char) (startsWithSeparator : Bool) : List Char :=
  match strVector with
  | [] => []
  | x :: xs =>
    (if startsWithSeparator then separator else []) ++ x ++ List.flatten (xs.map (fun y => separator ++ y))

/-- Expression algebra of the engine (`base::Expression`): the six node
variants; `Term` leaves are identified by their formatted name, which is all
the composition layer observes. -/
inductive Expression where
  | term (name : String) : Expression
  | andE (name : String) (operands : List Expression) : Expression
  | orE (name : String) (operands : List Expression) : Expression
  | chain (name : String) (operands : List Expression) : Expression
  | broadcast (name : String) (operands : List Expression) : Expression
  | implication (name : String) (antecedent consequent : Expression) : Expression
deriving Repr

/-- Asset subgraph handed to the composer: an asset name together with its
children in document order (an asset with several parents appears under each). -/
inductive AssetTree where
  | node (name : String) (children : List AssetTree) : AssetTree
deriving Repr

/-- Child-combination variant: decoders cascade under `Or`, rules and outputs
fan out under `Broadcast`. -/
inductive CombKind where
  | orComb : CombKind
  | broadcastComb : CombKind
deriving DecidableEq, Repr

/-- Build the combination node of the given kind. -/
def combine (k : CombKind) (name : String) (ops : List Expression) : Expression :=
  match k with
  | .orComb => .orE name ops
  | .broadcastComb => .broadcast name ops

/-- Name of the filter gating a target asset, if any. -/
def findFilterFor (filters : List (String × String)) (target : String) : Option String :=
  match filters with
  | [] => none
  | (f, t) :: rest => if t = target then some f else findFilterFor rest target

mutual

/-- Modelled from the spec: composition of one asset subgraph (spec section
4.6; the `builder::Environment` source is not part of this tree). A childless
asset is its own expression; an asset with children becomes
`Implication(<name>Node, asset, comb(children))`, and when a filter gates the
asset its children are wrapped as `Implication(<filter>Node, filter,
comb(children))` in place of the raw subgraph. -/
def composeAsset (k : CombKind) (filters : List (String × String)) : AssetTree → Expression
  | .node n [] => .term n
  | .node n (c :: cs) =>
    let childExprs := composeAssetList k filters (c :: cs)
    let gated :=
      match findFilterFor filters n with
      | some f => [Expression.implication (f ++ "Node") (.term f) (combine k (n ++ "Children") childExprs)]
      | none => childExprs
    .implication (n ++ "Node") (.term n) (combine k (n ++ "Children") gated)

/-- Composition of a sibling list in document order. -/
def composeAssetList (k : CombKind) (filters : List (String × String)) : List AssetTree → List Expression
  | [] => []
  | t :: ts => composeAsset k filters t :: composeAssetList k filters ts

end

/-- Policy document as the composer sees it: the root asset subgraphs of each
type, and the filter gates as (filter name, target name) pairs. -/
structure PolicyDef where
  decoders : List AssetTree
  rules : List AssetTree
  outputs : List AssetTree
  filters : List (String × String)

/-- Modelled from the spec: one type graph, absent when there are no assets of
the type. -/
def graphOf (k : CombKind) (inputName : String) (filters : List (String × String)) (roots : List AssetTree) : List Expression :=
  match roots with
  | [] => []
  | _ => [combine k inputName (composeAssetList k filters roots)]

/-- Modelled from the spec: the composed policy root
`Chain(policyRoot, decoderGraph, ruleGraph, outputGraph)`, omitting any absent
graph; decoders under `Or(decodersInput)`, rules under `Broadcast(rulesInput)`,
outputs under `Broadcast(outputsInput)`. -/
def composeEnvironment (p : PolicyDef) : Expression :=
  .chain "policyRoot"
    (graphOf .orComb "decodersInput" p.filters p.decoders
      ++ graphOf .broadcastComb "rulesInput" p.filters p.rules
      ++ graphOf .broadcastComb "outputsInput" p.filters p.outputs)

/-- Concrete policy of `EnvironmentTest.CompleteEnvironment`: three root
decoders, `decoder1` with children `decoder1_1`, `decoder1_2` gated by
`filter1`; `decoder2` and `decoder3` sharing the child `decoder23_1`; rules
`rule1` (parent of `rule1_1`) and `rule2`; one output `output1`. -/
def completeEnvDef : PolicyDef :=
  { decoders :=
      [ .node "decoder1" [.node "decoder1_1" [], .node "decoder1_2" []]
      , .node "decoder2" [.node "decoder23_1" []]
      , .node "decoder3" [.node "decoder23_1" []] ]
  , rules := [ .node "rule1" [.node "rule1_1" []], .node "rule2" [] ]
  , outputs := [ .node "output1" [] ]
  , filters := [("filter1", "decoder1")] }

/-! General lemmas shared by the claim theorems. -/

/-- Left cancellation for string concatenation. -/
theorem string_append_left_cancel {p a b : String} (h : p ++ a = p ++ b) : a = b := by
  have hd : p.data ++ a.data = p.data ++ b.data := by
    simpa [String.data_append] using congrArg String.data h
  exact String.ext (List.append_cancel_left hd)

/-- Appending different suffixes to the same string gives different strings. -/
theorem string_append_ne (p : String) {a b : String} (h : a ≠ b) : p ++ a ≠ p ++ b :=
  fun hc => h (string_append_left_cancel hc)

/-- The event in an `intCmpExec` result is the input event. -/
theorem intCmpExec_event (targetField : String) (op : Operator) (rv : IntOperand) (name : String) (e : Event) :
    (intCmpExec targetField op rv name e).event = e := by
  unfold intCmpExec
  repeat' split
  all_goals rfl

/-- The event in a `stringCmpExec` result is the input event. -/
theorem stringCmpExec_event (targetField : String) (op : Operator) (p : Parameter) (name : String) (e : Event) :
    (stringCmpExec targetField op p name e).event = e := by
  unfold stringCmpExec
  dsimp only
  repeat' split
  all_goals rfl

/-- The event in a `typeFilterExec` result is the input event. -/
theorem typeFilterExec_event (test : Event → String → Bool) (targetField successT wrongT missingT : String) (e : Event) :
    (typeFilterExec test targetField successT wrongT missingT e).event = e := by
  unfold typeFilterExec
  repeat' split
  all_goals rfl

/-- The event in an `isTrueExec` result is the input event. -/
theorem isTrueExec_event (targetField name : String) (e : Event) :
    (isTrueExec targetField name e).event = e := by
  unfold isTrueExec
  repeat' split
  all_goals rfl

/-- The event in an `isFalseExec` result is the input event. -/
theorem isFalseExec_event (targetField name : String) (e : Event) :
    (isFalseExec targetField name e).event = e := by
  unfold isFalseExec
  repeat' split
  all_goals rfl

/-- The event in an `existsExec` result is the input event. -/
theorem existsExec_event (targetField name : String) (e : Event) :
    (existsExec targetField name e).event = e := by
  unfold existsExec
  repeat' split
  all_goals rfl

/-- The event in a `notExistsExec` result is the input event. -/
theorem notExistsExec_event (targetField name : String) (e : Event) :
    (notExistsExec targetField name e).event = e := by
  unfold notExistsExec
  repeat' split
  all_goals rfl

/-- The event in a `regexMatchExec` result is the input event. -/
theorem regexMatchExec_event (matcher : String → Bool) (targetField name : String) (e : Event) :
    (regexMatchExec matcher targetField name e).event = e := by
  unfold regexMatchExec
  repeat' split
  all_goals rfl

/-- The event in a `regexNotMatchExec` result is the input event. -/
theorem regexNotMatchExec_event (matcher : String → Bool) (targetField name : String) (e : Event) :
    (regexNotMatchExec matcher targetField name e).event = e := by
  unfold regexNotMatchExec
  repeat' split
  all_goals rfl

/-- The event in an `ipCidrExec` result is the input event. -/
theorem ipCidrExec_event (targetField name : String) (lo hi : Nat) (e : Event) :
    (ipCidrExec targetField name lo hi e).event = e := by
  unfold ipCidrExec
  repeat' split
  all_goals rfl

/-- The event in an `arrayContainsExec` result is the input event. -/
theorem arrayContainsExec_event (targetField name : String) (ps : List Parameter) (e : Event) :
    (arrayContainsExec targetField name ps e).event = e := by
  unfold arrayContainsExec
  repeat' split
  all_goals rfl

/-- The event in a `wdbUpdateExec` result keeps the reference identity of the
input event (the document may change, the `shared_ptr` does not). -/
theorem wdbUpdateExec_refId (targetField : String) (p : Parameter) (sock : String → Option String) (name : String) (e : Event) :
    (wdbUpdateExec targetField p sock name e).event.refId = e.refId := by
  unfold wdbUpdateExec
  dsimp only
  repeat' split
  all_goals rfl

/-- C1: the string comparison helpers do NOT implement pure byte-lexicographic
comparison on arbitrary strings. At the exact input of the repository test
`opBuilderHelperStringLessThanEqual.Exec_less_than_true` (event
`field2check = "value1"`, `string_less_or_equal` with VALUE operand `value2`)
the numeric-validation branch of `getStringCmpFunction` rejects the arguments
and the helper fails, although the byte-lexicographic comparison holds; the
REFERENCE form of the same test fails as well because the raw `std::stoi` on a
pointer path always throws. -/
theorem stringCmp_numeric_validation_breaks_lexicographic :
    (stringCmpExec "/field2check" .LE ⟨.VALUE, "value2"⟩ "n"
        ⟨0, .obj [("field2check", .str "value1")]⟩).ok = false
    ∧ (stringCmpExec "/field2check" .LE ⟨.VALUE, "value2"⟩ "n"
        ⟨0, .obj [("field2check", .str "value1")]⟩).trace
        = numericArgsInvalidTrace "n" "/field2check" "value2"
    ∧ strCmpApply .LE "value1" "value2" = true
    ∧ (stringCmpExec "/field2check" .LE ⟨.REFERENCE, "/otherfield"⟩ "n"
        ⟨0, .obj [("field2check", .str "value1"), ("otherfield", .str "value2")]⟩).ok = false := by
  refine ⟨by decide, by decide, by decide, by decide⟩

/-- C6: every embedded helper term operation returns a result whose event is
the very reference it was given: the `refId` standing for `shared_ptr`
identity is unchanged on success and failure alike, for the comparison,
regex, CIDR, existence, array, type-test and `wdb_update` operations. -/
theorem term_preserves_event_identity :
    (∀ targetField op rv name e, (intCmpExec targetField op rv name e).event.refId = e.refId)
    ∧ (∀ targetField op p name e, (stringCmpExec targetField op p name e).event.refId = e.refId)
    ∧ (∀ test targetField sTr wTr mTr e, (typeFilterExec test targetField sTr wTr mTr e).event.refId = e.refId)
    ∧ (∀ targetField name e, (isTrueExec targetField name e).event.refId = e.refId)
    ∧ (∀ targetField name e, (isFalseExec targetField name e).event.refId = e.refId)
    ∧ (∀ targetField name e, (existsExec targetField name e).event.refId = e.refId)
    ∧ (∀ targetField name e, (notExistsExec targetField name e).event.refId = e.refId)
    ∧ (∀ matcher targetField name e, (regexMatchExec matcher targetField name e).event.refId = e.refId)
    ∧ (∀ matcher targetField name e, (regexNotMatchExec matcher targetField name e).event.refId = e.refId)
    ∧ (∀ targetField name lo hi e, (ipCidrExec targetField name lo hi e).event.refId = e.refId)
    ∧ (∀ targetField name ps e, (arrayContainsExec targetField name ps e).event.refId = e.refId)
    ∧ (∀ targetField p sock name e, (wdbUpdateExec targetField p sock name e).event.refId = e.refId) := by
  refine ⟨?_, ?_, ?_, ?_, ?_, ?_, ?_, ?_, ?_, ?_, ?_, ?_⟩
  · intro targetField op rv name e
    rw [intCmpExec_event]
  · intro targetField op p name e
    rw [stringCmpExec_event]
  · intro test targetField sTr wTr mTr e
    rw [typeFilterExec_event]
  · intro targetField name e
    rw [isTrueExec_event]
  · intro targetField name e
    rw [isFalseExec_event]
  · intro targetField name e
    rw [existsExec_event]
  · intro targetField name e
    rw [notExistsExec_event]
  · intro matcher targetField name e
    rw [regexMatchExec_event]
  · intro matcher targetField name e
    rw [regexNotMatchExec_event]
  · intro targetField name lo hi e
    rw [ipCidrExec_event]
  · intro targetField name ps e
    rw [arrayContainsExec_event]
  · intro targetField p sock name e
    exact wdbUpdateExec_refId targetField p sock name e

/-- C9: every embedded filter helper is read-only with respect to the event:
the JSON document in the result equals the input document, on success and on
failure, for the int and string comparisons, the regex and CIDR matches,
existence, `array_contains` and all fourteen type tests. -/
theorem filter_helpers_do_not_mutate :
    (∀ targetField op rv name e, (intCmpExec targetField op rv name e).event = e)
    ∧ (∀ targetField op p name e, (stringCmpExec targetField op p name e).event = e)
    ∧ (∀ test targetField sTr wTr mTr e, (typeFilterExec test targetField sTr wTr mTr e).event = e)
    ∧ (∀ targetField name e, (isTrueExec targetField name e).event = e)
    ∧ (∀ targetField name e, (isFalseExec targetField name e).event = e)
    ∧ (∀ targetField name e, (existsExec targetField name e).event = e)
    ∧ (∀ targetField name e, (notExistsExec targetField name e).event = e)
    ∧ (∀ matcher targetField name e, (regexMatchExec matcher targetField name e).event = e)
    ∧ (∀ matcher targetField name e, (regexNotMatchExec matcher targetField name e).event = e)
    ∧ (∀ targetField name lo hi e, (ipCidrExec targetField name lo hi e).event = e)
    ∧ (∀ targetField name ps e, (arrayContainsExec targetField name ps e).event = e) :=
  ⟨intCmpExec_event, stringCmpExec_event, typeFilterExec_event, isTrueExec_event,
    isFalseExec_event, existsExec_event, notExistsExec_event, regexMatchExec_event,
    regexNotMatchExec_event, ipCidrExec_event, arrayContainsExec_event⟩

/-- C3: contract of the int comparison helpers. A VALUE operand that does not
convert through `std::stoi` is a build error; at evaluation, a missing (or
non-int) target field fails with the target-not-found trace, a missing
REFERENCE operand fails with the parameter-not-found trace, and otherwise the
result is success exactly when the integer comparison holds. -/
theorem int_comparison_contract :
    (∀ targetField op p name, p.m_type = ParamType.VALUE → cppStoi p.m_value = none →
      getIntCmpFunction targetField op p name =
        Except.error ("\"" ++ name ++ "\" function: Parameter \"" ++ p.m_value ++ "\" could not be converted to int."))
    ∧ (∀ targetField op rv name e, e.getInt targetField = none →
      intCmpExec targetField op rv name e = makeFailure e (targetNotFoundTrace name targetField))
    ∧ (∀ targetField op path name e l, e.getInt targetField = some l → e.getInt path = none →
      intCmpExec targetField op (.ref path) name e = makeFailure e (paramNotFoundTrace name path))
    ∧ (∀ targetField op path name e l r, e.getInt targetField = some l → e.getInt path = some r →
      (intCmpExec targetField op (.ref path) name e).ok = intCmpApply op l r)
    ∧ (∀ targetField op v name e l, e.getInt targetField = some l →
      (intCmpExec targetField op (.val v) name e).ok = intCmpApply op l v) := by
  refine ⟨?_, ?_, ?_, ?_, ?_⟩
  · intro targetField op p name hty hstoi
    unfold getIntCmpFunction
    rw [hty, hstoi]
  · intro targetField op rv name e h
    unfold intCmpExec
    rw [h]
  · intro targetField op path name e l h1 h2
    simp only [intCmpExec, h1, h2]
  · intro targetField op path name e l r h1 h2
    simp only [intCmpExec, h1, h2]
    rcases hc : intCmpApply op l r <;> simp [hc, makeSuccess, makeFailure]
  · intro targetField op v name e l h1
    simp only [intCmpExec, h1]
    rcases hc : intCmpApply op l v <;> simp [hc, makeSuccess, makeFailure]

/-- Witness for C3: the contract applied at the concrete inputs of the
`opBuilderHelperIntGreaterThanEqual` tests (values 8, 10, 12; references to a
sibling field; a non-numeric VALUE operand). -/
theorem int_comparison_contract_witness :
    getIntCmpFunction "/field2check" .GE ⟨.VALUE, "notanint"⟩ "n" =
      Except.error ("\"" ++ "n" ++ "\" function: Parameter \"" ++ "notanint" ++ "\" could not be converted to int.")
    ∧ intCmpExec "/field2check" .GE (.val 10) "n" ⟨0, .obj []⟩ =
      makeFailure ⟨0, .obj []⟩ (targetNotFoundTrace "n" "/field2check")
    ∧ intCmpExec "/field2check" .GE (.ref "/otherfield") "n" ⟨0, .obj [("field2check", .num 10)]⟩ =
      makeFailure ⟨0, .obj [("field2check", .num 10)]⟩ (paramNotFoundTrace "n" "/otherfield")
    ∧ (intCmpExec "/field2check" .GE (.ref "/otherfield") "n"
        ⟨0, .obj [("field2check", .num 10), ("otherfield", .num 12)]⟩).ok = intCmpApply .GE 10 12
    ∧ (intCmpExec "/field2check" .GE (.val 8) "n" ⟨0, .obj [("field2check", .num 10)]⟩).ok
        = intCmpApply .GE 10 8 := by
  have h := int_comparison_contract
  refine ⟨?_, ?_, ?_, ?_, ?_⟩
  · exact h.1 "/field2check" .GE ⟨.VALUE, "notanint"⟩ "n" rfl (by decide)
  · exact h.2.1 "/field2check" .GE (.val 10) "n" ⟨0, .obj []⟩ (by decide)
  · exact h.2.2.1 "/field2check" .GE "/otherfield" "n" ⟨0, .obj [("field2check", .num 10)]⟩ 10 (by decide) (by decide)
  · exact h.2.2.2.1 "/field2check" .GE "/otherfield" "n"
      ⟨0, .obj [("field2check", .num 10), ("otherfield", .num 12)]⟩ 10 12 (by decide) (by decide)
  · exact h.2.2.2.2 "/field2check" .GE 8 "n" ⟨0, .obj [("field2check", .num 10)]⟩ 10 (by decide)

/-- The wrong-type trace and the not-found trace of a type-test helper differ
whenever their tails differ. -/
theorem wrongTypeTrace_ne_targetNotFound (name targetField what : String) (h : what ≠ "not found") :
    wrongTypeTrace name targetField what ≠ targetNotFoundTrace name targetField := by
  intro hEq
  apply h
  unfold wrongTypeTrace targetNotFoundTrace at hEq
  rw [show ("\x27 not found" : String) = "\x27 " ++ "not found" by rfl,
    ← String.append_assoc] at hEq
  exact string_append_left_cancel hEq

/-- Behavior of the shared type-test shape on a present field of the wrong
type versus an absent field: both fail, with the two designated traces. -/
theorem typeFilterExec_wrong_vs_missing (test : Event → String → Bool) (targetField sTr wTr mTr : String)
    (e1 e2 : Event) (h1 : e1.existsPath targetField = true) (h2 : test e1 targetField = false)
    (h3 : e2.existsPath targetField = false) :
    (typeFilterExec test targetField sTr wTr mTr e1).ok = false
    ∧ (typeFilterExec test targetField sTr wTr mTr e2).ok = false
    ∧ (typeFilterExec test targetField sTr wTr mTr e1).trace = wTr
    ∧ (typeFilterExec test targetField sTr wTr mTr e2).trace = mTr := by
  simp [typeFilterExec, h1, h2, h3, makeSuccess, makeFailure]

/-- A field that is not a boolean reads as `none` through `getBool`. -/
theorem getBool_eq_none_of_isBoolAt_false (e : Event) (path : String) (h : e.isBoolAt path = false) :
    e.getBool path = none := by
  unfold Event.isBoolAt at h
  unfold Event.getBool
  cases hj : e.getJson path with
  | none => rfl
  | some v => cases v <;> simp_all

/-- An absent field reads as `none` through `getBool`. -/
theorem getBool_eq_none_of_not_exists (e : Event) (path : String) (h : e.existsPath path = false) :
    e.getBool path = none := by
  unfold Event.existsPath at h
  unfold Event.getBool
  cases hj : e.getJson path with
  | none => rfl
  | some v => simp_all

/-- C4 counterexample: the claim fails as stated. For `is_true` on the event
with `a = "x"` the target field exists with the wrong type (not a boolean),
yet the failure trace is literally the same string as for an event in which
the target field is absent, because `opBuilderHelperIsTrue` drives on
`getBool` alone. -/
theorem type_test_trace_counterexample :
    Event.existsPath ⟨0, .obj [("a", .str "x")]⟩ "/a" = true
    ∧ Event.isBoolAt ⟨0, .obj [("a", .str "x")]⟩ "/a" = false
    ∧ Event.existsPath ⟨0, .obj []⟩ "/a" = false
    ∧ (isTrueExec "/a" "n" ⟨0, .obj [("a", .str "x")]⟩).ok = false
    ∧ (isTrueExec "/a" "n" ⟨0, .obj [("a", .str "x")]⟩).trace
      = (isTrueExec "/a" "n" ⟨0, .obj []⟩).trace := by
  decide

/-- C4 amended: for the twelve existence-guarded type tests (`is_number`
through `is_not_null`), a present target of the wrong type fails with a trace
distinct from the absent-target trace; for `is_true` and `is_false`, which
read the target through `getBool`, a present non-boolean target fails with the
same not-found trace as an absent target. -/
theorem type_test_traces_amended :
    (∀ name tf e1 e2, e1.existsPath tf = true → e1.isNumberAt tf = false → e2.existsPath tf = false →
      (isNumberExec tf name e1).ok = false ∧ (isNumberExec tf name e2).ok = false ∧
      (isNumberExec tf name e1).trace ≠ (isNumberExec tf name e2).trace)
    ∧ (∀ name tf e1 e2, e1.existsPath tf = true → e1.isNumberAt tf = true → e2.existsPath tf = false →
      (isNotNumberExec tf name e1).ok = false ∧ (isNotNumberExec tf name e2).ok = false ∧
      (isNotNumberExec tf name e1).trace ≠ (isNotNumberExec tf name e2).trace)
    ∧ (∀ name tf e1 e2, e1.existsPath tf = true → e1.isStringAt tf = false → e2.existsPath tf = false →
      (isStringExec tf name e1).ok = false ∧ (isStringExec tf name e2).ok = false ∧
      (isStringExec tf name e1).trace ≠ (isStringExec tf name e2).trace)
    ∧ (∀ name tf e1 e2, e1.existsPath tf = true → e1.isStringAt tf = true → e2.existsPath tf = false →
      (isNotStringExec tf name e1).ok = false ∧ (isNotStringExec tf name e2).ok = false ∧
      (isNotStringExec tf name e1).trace ≠ (isNotStringExec tf name e2).trace)
    ∧ (∀ name tf e1 e2, e1.existsPath tf = true → e1.isBoolAt tf = false → e2.existsPath tf = false →
      (isBoolExec tf name e1).ok = false ∧ (isBoolExec tf name e2).ok = false ∧
      (isBoolExec tf name e1).trace ≠ (isBoolExec tf name e2).trace)
    ∧ (∀ name tf e1 e2, e1.existsPath tf = true → e1.isBoolAt tf = true → e2.existsPath tf = false →
      (isNotBoolExec tf name e1).ok = false ∧ (isNotBoolExec tf name e2).ok = false ∧
      (isNotBoolExec tf name e1).trace ≠ (isNotBoolExec tf name e2).trace)
    ∧ (∀ name tf e1 e2, e1.existsPath tf = true → e1.isArrayAt tf = false → e2.existsPath tf = false →
      (isArrayExec tf name e1).ok = false ∧ (isArrayExec tf name e2).ok = false ∧
      (isArrayExec tf name e1).trace ≠ (isArrayExec tf name e2).trace)
    ∧ (∀ name tf e1 e2, e1.existsPath tf = true → e1.isArrayAt tf = true → e2.existsPath tf = false →
      (isNotArrayExec tf name e1).ok = false ∧ (isNotArrayExec tf name e2).ok = false ∧
      (isNotArrayExec tf name e1).trace ≠ (isNotArrayExec tf name e2).trace)
    ∧ (∀ name tf e1 e2, e1.existsPath tf = true → e1.isObjectAt tf = false → e2.existsPath tf = false →
      (isObjectExec tf name e1).ok = false ∧ (isObjectExec tf name e2).ok = false ∧
      (isObjectExec tf name e1).trace ≠ (isObjectExec tf name e2).trace)
    ∧ (∀ name tf e1 e2, e1.existsPath tf = true → e1.isObjectAt tf = true → e2.existsPath tf = false →
      (isNotObjectExec tf name e1).ok = false ∧ (isNotObjectExec tf name e2).ok = false ∧
      (isNotObjectExec tf name e1).trace ≠ (isNotObjectExec tf name e2).trace)
    ∧ (∀ name tf e1 e2, e1.existsPath tf = true → e1.isNullAt tf = false → e2.existsPath tf = false →
      (isNullExec tf name e1).ok = false ∧ (isNullExec tf name e2).ok = false ∧
      (isNullExec tf name e1).trace ≠ (isNullExec tf name e2).trace)
    ∧ (∀ name tf e1 e2, e1.existsPath tf = true → e1.isNullAt tf = true → e2.existsPath tf = false →
      (isNotNullExec tf name e1).ok = false ∧ (isNotNullExec tf name e2).ok = false ∧
      (isNotNullExec tf name e1).trace ≠ (isNotNullExec tf name e2).trace)
    ∧ (∀ name tf e1 e2, e1.existsPath tf = true → e1.isBoolAt tf = false → e2.existsPath tf = false →
      (isTrueExec tf name e1).ok = false ∧
      (isTrueExec tf name e1).trace = (isTrueExec tf name e2).trace)
    ∧ (∀ name tf e1 e2, e1.existsPath tf = true → e1.isBoolAt tf = false → e2.existsPath tf = false →
      (isFalseExec tf name e1).ok = false ∧
      (isFalseExec tf name e1).trace = (isFalseExec tf name e2).trace) := by
  refine ⟨?_, ?_, ?_, ?_, ?_, ?_, ?_, ?_, ?_, ?_, ?_, ?_, ?_, ?_⟩
  · intro name tf e1 e2 h1 h2 h3
    unfold isNumberExec
    have h := typeFilterExec_wrong_vs_missing (fun e f => e.isNumberAt f) tf (successTraceOf name)
      (wrongTypeTrace name tf "is not a number") (targetNotFoundTrace name tf) e1 e2 h1 h2 h3
    refine ⟨h.1, h.2.1, ?_⟩
    rw [h.2.2.1, h.2.2.2]
    exact wrongTypeTrace_ne_targetNotFound name tf "is not a number" (by decide)
  · intro name tf e1 e2 h1 h2 h3
    unfold isNotNumberExec
    have h := typeFilterExec_wrong_vs_missing (fun e f => ! e.isNumberAt f) tf (successTraceOf name)
      (wrongTypeTrace name tf "is a number") (targetNotFoundTrace name tf) e1 e2 h1 (by simp [h2]) h3
    refine ⟨h.1, h.2.1, ?_⟩
    rw [h.2.2.1, h.2.2.2]
    exact wrongTypeTrace_ne_targetNotFound name tf "is a number" (by decide)
  · intro name tf e1 e2 h1 h2 h3
    unfold isStringExec
    have h := typeFilterExec_wrong_vs_missing (fun e f => e.isStringAt f) tf (successTraceOf name)
      (wrongTypeTrace name tf "is not a string") (targetNotFoundTrace name tf) e1 e2 h1 h2 h3
    refine ⟨h.1, h.2.1, ?_⟩
    rw [h.2.2.1, h.2.2.2]
    exact wrongTypeTrace_ne_targetNotFound name tf "is not a string" (by decide)
  · intro name tf e1 e2 h1 h2 h3
    unfold isNotStringExec
    have h := typeFilterExec_wrong_vs_missing (fun e f => ! e.isStringAt f) tf (successTraceOf name)
      (wrongTypeTrace name tf "is a string") (targetNotFoundTrace name tf) e1 e2 h1 (by simp [h2]) h3
    refine ⟨h.1, h.2.1, ?_⟩
    rw [h.2.2.1, h.2.2.2]
    exact wrongTypeTrace_ne_targetNotFound name tf "is a string" (by decide)
  · intro name tf e1 e2 h1 h2 h3
    unfold isBoolExec
    have h := typeFilterExec_wrong_vs_missing (fun e f => e.isBoolAt f) tf (successTraceOf name)
      (wrongTypeTrace name tf "is not a boolean") (targetNotFoundTrace name tf) e1 e2 h1 h2 h3
    refine ⟨h.1, h.2.1, ?_⟩
    rw [h.2.2.1, h.2.2.2]
    exact wrongTypeTrace_ne_targetNotFound name tf "is not a boolean" (by decide)
  · intro name tf e1 e2 h1 h2 h3
    unfold isNotBoolExec
    have h := typeFilterExec_wrong_vs_missing (fun e f => ! e.isBoolAt f) tf (successTraceOf name)
      (wrongTypeTrace name tf "is a boolean") (targetNotFoundTrace name tf) e1 e2 h1 (by simp [h2]) h3
    refine ⟨h.1, h.2.1, ?_⟩
    rw [h.2.2.1, h.2.2.2]
    exact wrongTypeTrace_ne_targetNotFound name tf "is a boolean" (by decide)
  · intro name tf e1 e2 h1 h2 h3
    unfold isArrayExec
    have h := typeFilterExec_wrong_vs_missing (fun e f => e.isArrayAt f) tf (successTraceOf name)
      (wrongTypeTrace name tf "is not an array") (targetNotFoundTrace name tf) e1 e2 h1 h2 h3
    refine ⟨h.1, h.2.1, ?_⟩
    rw [h.2.2.1, h.2.2.2]
    exact wrongTypeTrace_ne_targetNotFound name tf "is not an array" (by decide)
  · intro name tf e1 e2 h1 h2 h3
    unfold isNotArrayExec
    have h := typeFilterExec_wrong_vs_missing (fun e f => ! e.isArrayAt f) tf (successTraceOf name)
      (wrongTypeTrace name tf "is an array") (targetNotFoundTrace name tf) e1 e2 h1 (by simp [h2]) h3
    refine ⟨h.1, h.2.1, ?_⟩
    rw [h.2.2.1, h.2.2.2]
    exact wrongTypeTrace_ne_targetNotFound name tf "is an array" (by decide)
  · intro name tf e1 e2 h1 h2 h3
    unfold isObjectExec
    have h := typeFilterExec_wrong_vs_missing (fun e f => e.isObjectAt f) tf (successTraceOf name)
      (wrongTypeTrace name tf "is not an object") (targetNotFoundTrace name tf) e1 e2 h1 h2 h3
    refine ⟨h.1, h.2.1, ?_⟩
    rw [h.2.2.1, h.2.2.2]
    exact wrongTypeTrace_ne_targetNotFound name tf "is not an object" (by decide)
  · intro name tf e1 e2 h1 h2 h3
    unfold isNotObjectExec
    have h := typeFilterExec_wrong_vs_missing (fun e f => ! e.isObjectAt f) tf (successTraceOf name)
      (wrongTypeTrace name tf "is an object") (targetNotFoundTrace name tf) e1 e2 h1 (by simp [h2]) h3
    refine ⟨h.1, h.2.1, ?_⟩
    rw [h.2.2.1, h.2.2.2]
    exact wrongTypeTrace_ne_targetNotFound name tf "is an object" (by decide)
  · intro name tf e1 e2 h1 h2 h3
    unfold isNullExec
    have h := typeFilterExec_wrong_vs_missing (fun e f => e.isNullAt f) tf (successTraceOf name)
      (wrongTypeTrace name tf "is not null") (targetNotFoundTrace name tf) e1 e2 h1 h2 h3
    refine ⟨h.1, h.2.1, ?_⟩
    rw [h.2.2.1, h.2.2.2]
    exact wrongTypeTrace_ne_targetNotFound name tf "is not null" (by decide)
  · intro name tf e1 e2 h1 h2 h3
    unfold isNotNullExec
    have h := typeFilterExec_wrong_vs_missing (fun e f => ! e.isNullAt f) tf (successTraceOf name)
      (wrongTypeTrace name tf "is null") (targetNotFoundTrace name tf) e1 e2 h1 (by simp [h2]) h3
    refine ⟨h.1, h.2.1, ?_⟩
    rw [h.2.2.1, h.2.2.2]
    exact wrongTypeTrace_ne_targetNotFound name tf "is null" (by decide)
  · intro name tf e1 e2 h1 h2 h3
    have hb1 := getBool_eq_none_of_isBoolAt_false e1 tf h2
    have hb2 := getBool_eq_none_of_not_exists e2 tf h3
    simp [isTrueExec, hb1, hb2, makeFailure]
  · intro name tf e1 e2 h1 h2 h3
    have hb1 := getBool_eq_none_of_isBoolAt_false e1 tf h2
    have hb2 := getBool_eq_none_of_not_exists e2 tf h3
    simp [isFalseExec, hb1, hb2, makeFailure]

/-- Witness for the amended C4: each of the fourteen type tests applied at a
concrete event where the target exists with the wrong type, against a concrete
event where the target is absent. -/
theorem type_test_traces_amended_witness :
    ((isNumberExec "/a" "n" ⟨0, .obj [("a", .str "x")]⟩).trace ≠ (isNumberExec "/a" "n" ⟨0, .obj []⟩).trace)
    ∧ ((isNotNumberExec "/a" "n" ⟨0, .obj [("a", .num 1)]⟩).trace ≠ (isNotNumberExec "/a" "n" ⟨0, .obj []⟩).trace)
    ∧ ((isStringExec "/a" "n" ⟨0, .obj [("a", .num 1)]⟩).trace ≠ (isStringExec "/a" "n" ⟨0, .obj []⟩).trace)
    ∧ ((isNotStringExec "/a" "n" ⟨0, .obj [("a", .str "x")]⟩).trace ≠ (isNotStringExec "/a" "n" ⟨0, .obj []⟩).trace)
    ∧ ((isBoolExec "/a" "n" ⟨0, .obj [("a", .num 1)]⟩).trace ≠ (isBoolExec "/a" "n" ⟨0, .obj []⟩).trace)
    ∧ ((isNotBoolExec "/a" "n" ⟨0, .obj [("a", .bool true)]⟩).trace ≠ (isNotBoolExec "/a" "n" ⟨0, .obj []⟩).trace)
    ∧ ((isArrayExec "/a" "n" ⟨0, .obj [("a", .num 1)]⟩).trace ≠ (isArrayExec "/a" "n" ⟨0, .obj []⟩).trace)
    ∧ ((isNotArrayExec "/a" "n" ⟨0, .obj [("a", .arr [])]⟩).trace ≠ (isNotArrayExec "/a" "n" ⟨0, .obj []⟩).trace)
    ∧ ((isObjectExec "/a" "n" ⟨0, .obj [("a", .num 1)]⟩).trace ≠ (isObjectExec "/a" "n" ⟨0, .obj []⟩).trace)
    ∧ ((isNotObjectExec "/a" "n" ⟨0, .obj [("a", .obj [])]⟩).trace ≠ (isNotObjectExec "/a" "n" ⟨0, .obj []⟩).trace)
    ∧ ((isNullExec "/a" "n" ⟨0, .obj [("a", .num 1)]⟩).trace ≠ (isNullExec "/a" "n" ⟨0, .obj []⟩).trace)
    ∧ ((isNotNullExec "/a" "n" ⟨0, .obj [("a", .null)]⟩).trace ≠ (isNotNullExec "/a" "n" ⟨0, .obj []⟩).trace)
    ∧ ((isTrueExec "/a" "n" ⟨0, .obj [("a", .str "x")]⟩).trace = (isTrueExec "/a" "n" ⟨0, .obj []⟩).trace)
    ∧ ((isFalseExec "/a" "n" ⟨0, .obj [("a", .str "x")]⟩).trace = (isFalseExec "/a" "n" ⟨0, .obj []⟩).trace) := by
  have h := type_test_traces_amended
  refine ⟨?_, ?_, ?_, ?_, ?_, ?_, ?_, ?_, ?_, ?_, ?_, ?_, ?_, ?_⟩
  · exact (h.1 "n" "/a" _ _ (by decide) (by decide) (by decide)).2.2
  · exact (h.2.1 "n" "/a" _ _ (by decide) (by decide) (by decide)).2.2
  · exact (h.2.2.1 "n" "/a" _ _ (by decide) (by decide) (by decide)).2.2
  · exact (h.2.2.2.1 "n" "/a" _ _ (by decide) (by decide) (by decide)).2.2
  · exact (h.2.2.2.2.1 "n" "/a" _ _ (by decide) (by decide) (by decide)).2.2
  · exact (h.2.2.2.2.2.1 "n" "/a" _ _ (by decide) (by decide) (by decide)).2.2
  · exact (h.2.2.2.2.2.2.1 "n" "/a" _ _ (by decide) (by decide) (by decide)).2.2
  · exact (h.2.2.2.2.2.2.2.1 "n" "/a" _ _ (by decide) (by decide) (by decide)).2.2
  · exact (h.2.2.2.2.2.2.2.2.1 "n" "/a" _ _ (by decide) (by decide) (by decide)).2.2
  · exact (h.2.2.2.2.2.2.2.2.2.1 "n" "/a" _ _ (by decide) (by decide) (by decide)).2.2
  · exact (h.2.2.2.2.2.2.2.2.2.2.1 "n" "/a" _ _ (by decide) (by decide) (by decide)).2.2
  · exact (h.2.2.2.2.2.2.2.2.2.2.2.1 "n" "/a" _ _ (by decide) (by decide) (by decide)).2.2
  · exact (h.2.2.2.2.2.2.2.2.2.2.2.2.1 "n" "/a" _ _ (by decide) (by decide) (by decide)).2
  · exact (h.2.2.2.2.2.2.2.2.2.2.2.2.2 "n" "/a" _ _ (by decide) (by decide) (by decide)).2

/-- C8: parameter translation of `processParameters`. A token whose first
character is the reference anchor `$` is parsed as a REFERENCE whose stored
value is the dotted remainder translated to a JSON pointer path with `.` as
the sub-key separator (`$a.b.c` yields `/a/b/c`), and every other token is
parsed as a VALUE whose stored value equals the token unchanged. -/
theorem parameter_reference_translation :
    processParameter "$a.b.c" = Except.ok ⟨.REFERENCE, "/a/b/c"⟩
    ∧ (∀ t rest p, t.data = '$' :: rest → formatJsonPath (String.mk rest) = some p →
        processParameter t = Except.ok ⟨.REFERENCE, p⟩)
    ∧ (∀ t, t.data.head? ≠ some '$' → processParameter t = Except.ok ⟨.VALUE, t⟩) := by
  refine ⟨by rfl, ?_, ?_⟩
  · intro t rest p ht hf
    obtain ⟨d⟩ := t
    have hd : d = '$' :: rest := ht
    subst hd
    simp only [processParameter, hf]
  · intro t h
    obtain ⟨d⟩ := t
    unfold processParameter
    split
    · next rest heq =>
      exfalso
      apply h
      have hd : d = '$' :: rest := heq
      rw [show (String.mk d).data = d from rfl, hd]
      rfl
    · rfl

/-- Witness for C8: the translation applied at the reference tokens of the
repository tests and at a literal token. -/
theorem parameter_reference_translation_witness :
    processParameter "$a.b.c" = Except.ok ⟨.REFERENCE, "/a/b/c"⟩
    ∧ processParameter "$wdb.query_parameters" = Except.ok ⟨.REFERENCE, "/wdb/query_parameters"⟩
    ∧ processParameter "value1" = Except.ok ⟨.VALUE, "value1"⟩ := by
  have h := parameter_reference_translation
  refine ⟨h.1, ?_, ?_⟩
  · exact h.2.1 "$wdb.query_parameters" ("wdb.query_parameters").data "/wdb/query_parameters"
      (by decide) (by decide)
  · exact h.2.2 "value1" (by decide)

/-- C7: contract of `ip_cidr_match`. An unparseable network or mask at build
time is a build error; on a parseable pair the builder fixes
`net_lower = network AND mask` and `net_upper = net_lower OR (NOT mask)` over
32-bit unsigned integers; at evaluation a parseable IPv4 target succeeds
exactly when `net_lower <= ip <= net_upper`, an unparseable target fails with
the conversion trace, and a missing target fails with the not-found trace. -/
theorem ip_cidr_match_contract :
    (∀ targetField net mask name, parseIPv4 net = none →
      opBuilderHelperIPCIDR targetField net mask name =
        Except.error ("\"" ++ name ++ "\" function: IPv4 address could not be converted to int"))
    ∧ (∀ targetField net mask name network, parseIPv4 net = some network → parseIPv4Mask mask = none →
      opBuilderHelperIPCIDR targetField net mask name =
        Except.error ("\"" ++ name ++ "\" function: IPv4 Mask \"" ++ mask ++ "\" could not be converted to int"))
    ∧ (∀ targetField net mask name network maskV, parseIPv4 net = some network → parseIPv4Mask mask = some maskV →
      opBuilderHelperIPCIDR targetField net mask name =
        Except.ok (ipCidrExec targetField name (Nat.land network maskV)
          (Nat.lor (Nat.land network maskV) (comp32 maskV))))
    ∧ (∀ targetField name lo hi e s ip, e.getString targetField = some s → parseIPv4 s = some ip →
      (ipCidrExec targetField name lo hi e).ok = decide (lo ≤ ip ∧ ip ≤ hi))
    ∧ (∀ targetField name lo hi e s, e.getString targetField = some s → parseIPv4 s = none →
      ipCidrExec targetField name lo hi e =
        makeFailure e ("[" ++ name ++ "] -> Failure: IPv4 address \x27" ++ s ++ "\x27 could not be converted to int"))
    ∧ (∀ targetField name lo hi e, e.getString targetField = none →
      ipCidrExec targetField name lo hi e = makeFailure e (targetNotFoundTrace name targetField)) := by
  refine ⟨?_, ?_, ?_, ?_, ?_, ?_⟩
  · intro targetField net mask name h
    unfold opBuilderHelperIPCIDR
    rw [h]
  · intro targetField net mask name network h1 h2
    simp only [opBuilderHelperIPCIDR, h1, h2]
  · intro targetField net mask name network maskV h1 h2
    simp only [opBuilderHelperIPCIDR, h1, h2]
  · intro targetField name lo hi e s ip h1 h2
    simp only [ipCidrExec, h1, h2]
    rcases hc : decide (lo ≤ ip ∧ ip ≤ hi) with hfalse | htrue
    · rw [if_neg (by simpa using hc)]
      rfl
    · rw [if_pos (by simpa using hc)]
      rfl
  · intro targetField name lo hi e s h1 h2
    simp only [ipCidrExec, h1, h2]
  · intro targetField name lo hi e h
    unfold ipCidrExec
    rw [h]

/-- Witness for C7: the contract applied at the network `192.168.0.0` with
prefix mask `16` (and dotted-quad mask `255.255.0.0`), at an address inside
and one outside the range, an unparseable address, and a missing target. -/
theorem ip_cidr_match_contract_witness :
    opBuilderHelperIPCIDR "/f" "notanip" "16" "n" =
      Except.error ("\"" ++ "n" ++ "\" function: IPv4 address could not be converted to int")
    ∧ opBuilderHelperIPCIDR "/f" "192.168.0.0" "notamask" "n" =
      Except.error ("\"" ++ "n" ++ "\" function: IPv4 Mask \"" ++ "notamask" ++ "\" could not be converted to int")
    ∧ opBuilderHelperIPCIDR "/f" "192.168.0.0" "16" "n" =
      Except.ok (ipCidrExec "/f" "n" (Nat.land 3232235520 4294901760)
        (Nat.lor (Nat.land 3232235520 4294901760) (comp32 4294901760)))
    ∧ (ipCidrExec "/f" "n" 3232235520 3232301055 ⟨0, .obj [("f", .str "192.168.1.5")]⟩).ok
      = decide (3232235520 ≤ 3232235781 ∧ 3232235781 ≤ 3232301055)
    ∧ (ipCidrExec "/f" "n" 3232235520 3232301055 ⟨0, .obj [("f", .str "10.0.0.1")]⟩).ok
      = decide (3232235520 ≤ 167772161 ∧ 167772161 ≤ 3232301055)
    ∧ ipCidrExec "/f" "n" 3232235520 3232301055 ⟨0, .obj [("f", .str "oops")]⟩ =
      makeFailure ⟨0, .obj [("f", .str "oops")]⟩
        ("[" ++ "n" ++ "] -> Failure: IPv4 address \x27" ++ "oops" ++ "\x27 could not be converted to int")
    ∧ ipCidrExec "/f" "n" 3232235520 3232301055 ⟨0, .obj []⟩ =
      makeFailure ⟨0, .obj []⟩ (targetNotFoundTrace "n" "/f") := by
  have h := ip_cidr_match_contract
  refine ⟨?_, ?_, ?_, ?_, ?_, ?_, ?_⟩
  · exact h.1 "/f" "notanip" "16" "n" (by decide)
  · exact h.2.1 "/f" "192.168.0.0" "notamask" "n" 3232235520 (by decide) (by decide)
  · exact h.2.2.1 "/f" "192.168.0.0" "16" "n" 3232235520 4294901760 (by decide) (by decide)
  · exact h.2.2.2.1 "/f" "n" 3232235520 3232301055 ⟨0, .obj [("f", .str "192.168.1.5")]⟩
      "192.168.1.5" 3232235781 (by decide) (by decide)
  · exact h.2.2.2.1 "/f" "n" 3232235520 3232301055 ⟨0, .obj [("f", .str "10.0.0.1")]⟩
      "10.0.0.1" 167772161 (by decide) (by decide)
  · exact h.2.2.2.2.1 "/f" "n" 3232235520 3232301055 ⟨0, .obj [("f", .str "oops")]⟩ "oops"
      (by decide) (by decide)
  · exact h.2.2.2.2.2 "/f" "n" 3232235520 3232301055 ⟨0, .obj []⟩ (by decide)

/-- Looking a key up after updating it finds the updated value. -/
theorem lookupField_updateField (fields : List (String × JValue)) (key : String) (f : JValue → JValue) :
    lookupField (updateField key f fields) key =
      some (f ((lookupField fields key).getD .null)) := by
  induction fields with
  | nil => simp [updateField, lookupField]
  | cons kv tail ih =>
    obtain ⟨k, w⟩ := kv
    by_cases hk : k = key
    · subst hk
      simp [updateField, lookupField]
    · simp [updateField, lookupField, hk, ih]

/-- Reading a path right after writing it yields the written value. -/
theorem getSegs_setSegs (segs : List String) (j v : JValue) :
    getSegs (setSegs segs j v) segs = some v := by
  induction segs generalizing j with
  | nil => rfl
  | cons s rest ih =>
    have key : ∀ fields, getSegs (JValue.obj (updateField s (fun old => setSegs rest old v) fields)) (s :: rest) = some v := by
      intro fields
      simp only [getSegs, lookupField_updateField]
      exact ih _
    cases j with
    | obj fields => simpa [setSegs] using key fields
    | null => simpa [setSegs] using key []
    | bool b => simpa [setSegs] using key []
    | num n => simpa [setSegs] using key []
    | str s2 => simpa [setSegs] using key []
    | arr xs => simpa [setSegs] using key []

/-- A boolean written by `setBool` is read back by `getBool`. -/
theorem getBool_setBool (e : Event) (path : String) (b : Bool) :
    (e.setBool path b).getBool path = some b := by
  unfold Event.setBool Event.getBool Event.getJson
  simp [getSegs_setSegs]

/-- C5: contract of `wdb_update` (spec-modelled). A missing request REFERENCE
or an empty resolved request string is a failure; when the socket exchange
completes, the target field is set to `true` exactly when the reply begins
with `ok` (alone or followed by whitespace and a payload) and to `false`
otherwise, and the term succeeds in both cases. -/
theorem wdb_update_contract :
    (∀ targetField path name e sock, e.getString path = none →
      (wdbUpdateExec targetField ⟨.REFERENCE, path⟩ sock name e).ok = false)
    ∧ (∀ targetField path name e sock, e.getString path = some "" →
      (wdbUpdateExec targetField ⟨.REFERENCE, path⟩ sock name e).ok = false)
    ∧ (∀ targetField path name e sock q reply, e.getString path = some q → q ≠ "" →
      sock q = some reply →
      wdbUpdateExec targetField ⟨.REFERENCE, path⟩ sock name e =
        makeSuccess (e.setBool targetField (okReply reply)) (successTraceOf name)
      ∧ (wdbUpdateExec targetField ⟨.REFERENCE, path⟩ sock name e).ok = true
      ∧ (wdbUpdateExec targetField ⟨.REFERENCE, path⟩ sock name e).event.getBool targetField
          = some (okReply reply))
    ∧ (∀ targetField v name e sock reply, v ≠ "" → sock v = some reply →
      (wdbUpdateExec targetField ⟨.VALUE, v⟩ sock name e).ok = true
      ∧ (wdbUpdateExec targetField ⟨.VALUE, v⟩ sock name e).event.getBool targetField
          = some (okReply reply))
    ∧ okReply "ok" = true ∧ okReply "ok " = true ∧ okReply "ok with discart payload" = true
    ∧ okReply "NotOk" = false ∧ okReply "Random payload" = false := by
  refine ⟨?_, ?_, ?_, ?_, by decide, by decide, by decide, by decide, by decide⟩
  · intro targetField path name e sock h
    simp [wdbUpdateExec, h, makeFailure]
  · intro targetField path name e sock h
    simp [wdbUpdateExec, h, makeFailure]
  · intro targetField path name e sock q reply h1 h2 h3
    have hmain : wdbUpdateExec targetField ⟨.REFERENCE, path⟩ sock name e =
        makeSuccess (e.setBool targetField (okReply reply)) (successTraceOf name) := by
      simp [wdbUpdateExec, h1, h2, h3]
    refine ⟨hmain, ?_, ?_⟩
    · rw [hmain]
      rfl
    · rw [hmain]
      exact getBool_setBool e targetField (okReply reply)
  · intro targetField v name e sock reply h1 h2
    have hmain : wdbUpdateExec targetField ⟨.VALUE, v⟩ sock name e =
        makeSuccess (e.setBool targetField (okReply reply)) (successTraceOf name) := by
      simp [wdbUpdateExec, h1, h2]
    refine ⟨?_, ?_⟩
    · rw [hmain]
      rfl
    · rw [hmain]
      exact getBool_setBool e targetField (okReply reply)

/-- Witness for C5: the contract applied at the concrete events of the
`opBuilderWdbUpdate` tests: a missing reference, an empty reference, and the
replies `ok`, `ok ` and `NotOk` on the query event. -/
theorem wdb_update_contract_witness :
    (wdbUpdateExec "/wdb/result" ⟨.REFERENCE, "/wdb/query_parameters"⟩ (fun _ => some "ok") "n"
      ⟨0, .obj [("wdb", .obj [("not_query_parameters", .str "something")])]⟩).ok = false
    ∧ (wdbUpdateExec "/wdb/result" ⟨.REFERENCE, "/wdb/query_parameters"⟩ (fun _ => some "ok") "n"
      ⟨0, .obj [("wdb", .obj [("query_parameters", .str "")])]⟩).ok = false
    ∧ ((wdbUpdateExec "/wdb/result" ⟨.REFERENCE, "/wdb/query_parameters"⟩ (fun _ => some "ok") "n"
      ⟨0, .obj [("wdb", .obj [("query_parameters", .str "agent 007 syscheck integrity_clear")])]⟩).ok = true
      ∧ (wdbUpdateExec "/wdb/result" ⟨.REFERENCE, "/wdb/query_parameters"⟩ (fun _ => some "ok") "n"
      ⟨0, .obj [("wdb", .obj [("query_parameters", .str "agent 007 syscheck integrity_clear")])]⟩).event.getBool "/wdb/result"
        = some (okReply "ok"))
    ∧ ((wdbUpdateExec "/wdb/result" ⟨.REFERENCE, "/wdb/query_parameters"⟩ (fun _ => some "NotOk") "n"
      ⟨0, .obj [("wdb", .obj [("query_parameters", .str "agent 007 syscheck integrity_clear")])]⟩).event.getBool "/wdb/result"
        = some (okReply "NotOk"))
    ∧ ((wdbUpdateExec "/wdb/result" ⟨.REFERENCE, "/wdb/query_parameters"⟩ (fun _ => some "ok ") "n"
      ⟨0, .obj [("wdb", .obj [("query_parameters", .str "agent 007 syscheck integrity_clear")])]⟩).event.getBool "/wdb/result"
        = some (okReply "ok ")) := by
  have h := wdb_update_contract
  refine ⟨?_, ?_, ?_, ?_, ?_⟩
  · exact h.1 "/wdb/result" "/wdb/query_parameters" "n"
      ⟨0, .obj [("wdb", .obj [("not_query_parameters", .str "something")])]⟩ (fun _ => some "ok") (by decide)
  · exact h.2.1 "/wdb/result" "/wdb/query_parameters" "n"
      ⟨0, .obj [("wdb", .obj [("query_parameters", .str "")])]⟩ (fun _ => some "ok") (by decide)
  · have hh := h.2.2.1 "/wdb/result" "/wdb/query_parameters" "n"
      ⟨0, .obj [("wdb", .obj [("query_parameters", .str "agent 007 syscheck integrity_clear")])]⟩
      (fun _ => some "ok") "agent 007 syscheck integrity_clear" "ok" (by decide) (by decide) rfl
    exact ⟨hh.2.1, hh.2.2⟩
  · have hh := h.2.2.1 "/wdb/result" "/wdb/query_parameters" "n"
      ⟨0, .obj [("wdb", .obj [("query_parameters", .str "agent 007 syscheck integrity_clear")])]⟩
      (fun _ => some "NotOk") "agent 007 syscheck integrity_clear" "NotOk" (by decide) (by decide) rfl
    exact hh.2.2
  · have hh := h.2.2.1 "/wdb/result" "/wdb/query_parameters" "n"
      ⟨0, .obj [("wdb", .obj [("query_parameters", .str "agent 007 syscheck integrity_clear")])]⟩
      (fun _ => some "ok ") "agent 007 syscheck integrity_clear" "ok " (by decide) (by decide) rfl
    exact hh.2.2

/-- C2: structure of the composed policy (spec-modelled composer). For every
policy with at least one decoder, rule and output, the root is a `Chain` whose
operands are, in order, the decoder graph as an `Or` named `decodersInput`,
the rule graph as a `Broadcast` named `rulesInput`, and the output graph as a
`Broadcast` named `outputsInput`; a decoder with children compiles to
`Implication(decoder, Or(children))`; a filter gating a target wraps the
children as `Implication(filter, children)` in place of the raw subgraph; and
the concrete policy of `EnvironmentTest.CompleteEnvironment` composes to the
exact tree the test asserts. -/
theorem policy_composition_structure :
    (∀ p : PolicyDef, p.decoders ≠ [] → p.rules ≠ [] → p.outputs ≠ [] →
      composeEnvironment p = .chain "policyRoot"
        [ .orE "decodersInput" (composeAssetList .orComb p.filters p.decoders)
        , .broadcast "rulesInput" (composeAssetList .broadcastComb p.filters p.rules)
        , .broadcast "outputsInput" (composeAssetList .broadcastComb p.filters p.outputs) ])
    ∧ (∀ filters n c cs, findFilterFor filters n = none →
      composeAsset .orComb filters (.node n (c :: cs)) =
        .implication (n ++ "Node") (.term n)
          (.orE (n ++ "Children") (composeAssetList .orComb filters (c :: cs))))
    ∧ (∀ filters n c cs f, findFilterFor filters n = some f →
      composeAsset .orComb filters (.node n (c :: cs)) =
        .implication (n ++ "Node") (.term n)
          (.orE (n ++ "Children")
            [.implication (f ++ "Node") (.term f)
              (.orE (n ++ "Children") (composeAssetList .orComb filters (c :: cs)))]))
    ∧ composeEnvironment completeEnvDef = .chain "policyRoot"
        [ .orE "decodersInput"
            [ .implication "decoder1Node" (.term "decoder1")
                (.orE "decoder1Children"
                  [ .implication "filter1Node" (.term "filter1")
                      (.orE "decoder1Children" [.term "decoder1_1", .term "decoder1_2"]) ])
            , .implication "decoder2Node" (.term "decoder2")
                (.orE "decoder2Children" [.term "decoder23_1"])
            , .implication "decoder3Node" (.term "decoder3")
                (.orE "decoder3Children" [.term "decoder23_1"]) ]
        , .broadcast "rulesInput"
            [ .implication "rule1Node" (.term "rule1")
                (.broadcast "rule1Children" [.term "rule1_1"])
            , .term "rule2" ]
        , .broadcast "outputsInput" [.term "output1"] ] := by
  refine ⟨?_, ?_, ?_, rfl⟩
  · intro p hd hr ho
    obtain ⟨ds, rs, os, fs⟩ := p
    cases ds with
    | nil => exact absurd rfl hd
    | cons d ds =>
      cases rs with
      | nil => exact absurd rfl hr
      | cons r rs =>
        cases os with
        | nil => exact absurd rfl ho
        | cons o os => rfl
  · intro filters n c cs h
    simp [composeAsset, combine, h]
  · intro filters n c cs f h
    simp [composeAsset, combine, h]

/-- Witness for C2: the chain-shape part of the composition theorem applied at
the concrete `CompleteEnvironment` policy. -/
theorem policy_composition_structure_witness :
    composeEnvironment completeEnvDef = .chain "policyRoot"
      [ .orE "decodersInput" (composeAssetList .orComb completeEnvDef.filters completeEnvDef.decoders)
      , .broadcast "rulesInput" (composeAssetList .broadcastComb completeEnvDef.filters completeEnvDef.rules)
      , .broadcast "outputsInput" (composeAssetList .broadcastComb completeEnvDef.filters completeEnvDef.outputs) ]
    ∧ composeAsset .orComb completeEnvDef.filters (.node "decoder2" [.node "decoder23_1" []]) =
      .implication "decoder2Node" (.term "decoder2")
        (.orE "decoder2Children" (composeAssetList .orComb completeEnvDef.filters [.node "decoder23_1" []]))
    ∧ composeAsset .orComb completeEnvDef.filters (.node "decoder1" [.node "decoder1_1" [], .node "decoder1_2" []]) =
      .implication "decoder1Node" (.term "decoder1")
        (.orE "decoder1Children"
          [.implication "filter1Node" (.term "filter1")
            (.orE "decoder1Children"
              (composeAssetList .orComb completeEnvDef.filters [.node "decoder1_1" [], .node "decoder1_2" []]))]) := by
  have h := policy_composition_structure
  refine ⟨?_, ?_, ?_⟩
  · exact h.1 completeEnvDef (List.cons_ne_nil _ _) (List.cons_ne_nil _ _) (List.cons_ne_nil _ _)
  · exact h.2.1 completeEnvDef.filters "decoder2" (.node "decoder23_1" []) [] rfl
  · exact h.2.2.1 completeEnvDef.filters "decoder1" (.node "decoder1_1" []) [.node "decoder1_2" []] "filter1" rfl

/-- Unfolding of `split` when the delimiter does not occur: the loop exits and
pushes the remainder only when non-empty. -/
theorem split_of_none (s : List Char) (d : Char) (h : s.findIdx? (fun c => c = d) = none) :
    split s d = if s.isEmpty then [] else [s] := by
  rw [split.eq_def]
  split
  · rfl
  · next pos heq =>
    rw [h] at heq
    cases heq

/-- Unfolding of `split` at the first occurrence of the delimiter. -/
theorem split_of_some (s : List Char) (d : Char) (pos : Nat) (h : s.findIdx? (fun c => c = d) = some pos) :
    split s d = s.take pos :: split (s.drop (pos + 1)) d := by
  rw [split.eq_def]
  split
  · next heq =>
    rw [h] at heq
    cases heq
  · next pos2 heq =>
    rw [h] at heq
    cases heq
    rfl

/-- The find-and-cut loop of `split` equals its character-by-character
restatement `splitCW`. -/
theorem split_eq_splitCW (d : Char) (s : List Char) : split s d = splitCW d s := by
  induction s with
  | nil =>
    rw [split_of_none [] d rfl]
    rfl
  | cons c cs ih =>
    by_cases hc : c = d
    · have hf : (c :: cs).findIdx? (fun x => x = d) = some 0 := by
        simp [List.findIdx?_cons, hc]
      rw [split_of_some _ _ 0 hf]
      have hdrop : (c :: cs).drop 1 = cs := rfl
      rw [List.take_zero, hdrop, ih]
      simp [splitCW, hc]
    · cases hf : cs.findIdx? (fun x => x = d) with
      | none =>
        have hfs : (c :: cs).findIdx? (fun x => x = d) = none := by
          simp [List.findIdx?_cons, hc, List.findIdx?_succ, hf]
        rw [split_of_none _ _ hfs]
        have hcs : split cs d = splitCW d cs := ih
        rw [split_of_none _ _ hf] at hcs
        simp only [splitCW, if_neg hc]
        rw [← hcs]
        cases cs <;> simp [consOnHead]
      | some p =>
        have hfs : (c :: cs).findIdx? (fun x => x = d) = some (p + 1) := by
          simp [List.findIdx?_cons, hc, List.findIdx?_succ, hf]
        rw [split_of_some _ _ (p + 1) hfs]
        have hcs : split cs d = cs.take p :: split (cs.drop (p + 1)) d := split_of_some cs d p hf
        simp only [List.take_succ_cons, List.drop_succ_cons]
        rw [show splitCW d (c :: cs) = consOnHead c (splitCW d cs) by simp [splitCW, hc]]
        rw [← ih, hcs]
        rfl

/-- Prepending a character never empties a segmentation. -/
theorem consOnHead_ne_nil (c : Char) (l : List (List Char)) : consOnHead c l ≠ [] := by
  cases l <;> simp [consOnHead]

/-- Full splitting always yields at least one segment. -/
theorem fullSplit_ne_nil (d : Char) (s : List Char) : fullSplit d s ≠ [] := by
  cases s with
  | nil => simp [fullSplit]
  | cons c cs =>
    by_cases hc : c = d
    · simp [fullSplit, hc]
    · simp only [fullSplit, if_neg hc]
      exact consOnHead_ne_nil c _

/-- On an input with a trailing delimiter, `split` yields exactly the full
segmentation of the input without that delimiter: the final empty segment is
omitted. -/
theorem splitCW_append_delim (d : Char) (t : List Char) : splitCW d (t ++ [d]) = fullSplit d t := by
  induction t with
  | nil => simp [splitCW, fullSplit]
  | cons c cs ih =>
    by_cases hc : c = d
    · simp [splitCW, fullSplit, hc, ih]
    · simp [splitCW, fullSplit, hc, ih]

/-- Prepending onto the head commutes with appending a last segment. -/
theorem consOnHead_append (c : Char) (l : List (List Char)) (hl : l ≠ []) (x : List Char) :
    consOnHead c (l ++ [x]) = consOnHead c l ++ [x] := by
  cases l with
  | nil => exact absurd rfl hl
  | cons h t => rfl

/-- A trailing delimiter appends exactly one empty segment to the full
segmentation. -/
theorem fullSplit_append_delim (d : Char) (t : List Char) :
    fullSplit d (t ++ [d]) = fullSplit d t ++ [[]] := by
  induction t with
  | nil => simp [fullSplit]
  | cons c cs ih =>
    by_cases hc : c = d
    · simp [fullSplit, hc, ih]
    · show fullSplit d (c :: (cs ++ [d])) = fullSplit d (c :: cs) ++ [[]]
      rw [show fullSplit d (c :: (cs ++ [d])) = consOnHead c (fullSplit d (cs ++ [d])) by
            simp [fullSplit, hc],
        show fullSplit d (c :: cs) = consOnHead c (fullSplit d cs) by simp [fullSplit, hc],
        ih]
      exact consOnHead_append c _ (fullSplit_ne_nil d cs) []

/-- On an input that does not end with the delimiter, `split` preserves every
segment of the full segmentation, including empty ones at the start or between
consecutive delimiters. -/
theorem splitCW_no_trailing (d : Char) : ∀ s : List Char, s ≠ [] → s.getLast? ≠ some d →
    splitCW d s = fullSplit d s := by
  intro s
  induction s with
  | nil =>
    intro h _
    exact absurd rfl h
  | cons c cs ih =>
    intro _ hlast
    cases cs with
    | nil =>
      have hc : c ≠ d := by
        intro hcd
        exact hlast (by simp [hcd])
      simp [splitCW, fullSplit, hc, consOnHead]
    | cons c2 cs2 =>
      have hlast2 : (c2 :: cs2).getLast? ≠ some d := by
        simpa [List.getLast?_cons_cons] using hlast
      have ih2 := ih (by simp) hlast2
      by_cases hc : c = d
      · rw [show splitCW d (c :: c2 :: cs2) = [] :: splitCW d (c2 :: cs2) by simp [splitCW, hc],
          show fullSplit d (c :: c2 :: cs2) = [] :: fullSplit d (c2 :: cs2) by simp [fullSplit, hc],
          ih2]
      · rw [show splitCW d (c :: c2 :: cs2) = consOnHead c (splitCW d (c2 :: cs2)) by
            simp [splitCW, hc],
          show fullSplit d (c :: c2 :: cs2) = consOnHead c (fullSplit d (c2 :: cs2)) by
            simp [fullSplit, hc],
          ih2]

/-- Joining the full segmentation with the delimiter restores the input. -/
theorem join_fullSplit (d : Char) (s : List Char) : join (fullSplit d s) [d] false = s := by
  induction s with
  | nil => rfl
  | cons c cs ih =>
    obtain ⟨h, t, hht⟩ : ∃ h t, fullSplit d cs = h :: t := by
      cases hfs : fullSplit d cs with
      | nil => exact absurd hfs (fullSplit_ne_nil d cs)
      | cons h t => exact ⟨h, t, rfl⟩
    rw [hht] at ih
    have ih2 : h ++ List.flatten (t.map (fun y => [d] ++ y)) = cs := by
      simpa [join] using ih
    by_cases hc : c = d
    · rw [show fullSplit d (c :: cs) = [] :: fullSplit d cs by simp [fullSplit, hc], hht]
      simp only [join, List.map_cons, List.flatten_cons, Bool.false_eq_true, if_false,
        List.nil_append]
      rw [List.append_assoc, ih2]
      simp [hc]
    · rw [show fullSplit d (c :: cs) = consOnHead c (fullSplit d cs) by simp [fullSplit, hc], hht]
      show join ((c :: h) :: t) [d] false = c :: cs
      simp only [join, Bool.false_eq_true, if_false, List.nil_append]
      rw [List.cons_append, ih2]

/-- C10 counterexample: the claim fails as stated. On the input `::` the
result of `split` is `["", ""]`, whose last element IS an empty segment (the
empty segment between the two consecutive delimiters is preserved and ends the
list); only the segment after the final delimiter is dropped. -/
theorem split_trailing_empty_counterexample :
    split [':', ':'] ':' = [[], []]
    ∧ (split [':', ':'] ':').getLast? = some [] := by
  have h : split [':', ':'] ':' = [[], []] := by
    rw [split_eq_splitCW]
    decide
  exact ⟨h, by rw [h]; rfl⟩

/-- C10 amended: `split` omits exactly the segment that follows a final
trailing delimiter (`split "a:" = ["a"]`, `split "" = []`); all other
segments, including empty ones at the start or between consecutive
delimiters, are preserved, so the result may still end with an empty segment;
consequently `join (split s d) d` is not the identity on inputs ending with
the delimiter: it restores the input without its final delimiter. -/
theorem split_trailing_delimiter_amended :
    (∀ (s : List Char) (d : Char), split (s ++ [d]) d = fullSplit d s)
    ∧ (∀ (s : List Char) (d : Char), fullSplit d (s ++ [d]) = fullSplit d s ++ [[]])
    ∧ (∀ (s : List Char) (d : Char), s ≠ [] → s.getLast? ≠ some d → split s d = fullSplit d s)
    ∧ split ['a', ':'] ':' = [['a']]
    ∧ split ([] : List Char) ':' = []
    ∧ (∀ (s : List Char) (d : Char), join (split (s ++ [d]) d) [d] false = s)
    ∧ (∀ (s : List Char) (d : Char), join (split (s ++ [d]) d) [d] false ≠ s ++ [d]) := by
  have h1 : ∀ (s : List Char) (d : Char), split (s ++ [d]) d = fullSplit d s := by
    intro s d
    rw [split_eq_splitCW, splitCW_append_delim]
  have h6 : ∀ (s : List Char) (d : Char), join (split (s ++ [d]) d) [d] false = s := by
    intro s d
    rw [h1, join_fullSplit]
  refine ⟨h1, fun s d => fullSplit_append_delim d s, ?_, ?_, ?_, h6, ?_⟩
  · intro s d hs hl
    rw [split_eq_splitCW, splitCW_no_trailing d s hs hl]
  · rw [split_eq_splitCW]
    decide
  · rw [split_eq_splitCW]
    decide
  · intro s d
    rw [h6]
    intro hcontra
    have hlen := congrArg List.length hcontra
    simp at hlen

/-- Witness for the amended C10: the trailing-delimiter law, the preservation
law on an input with a leading empty segment, and the non-identity of
join-after-split, each at concrete inputs. -/
theorem split_trailing_delimiter_amended_witness :
    split ['a', 'b', ':'] ':' = fullSplit ':' ['a', 'b']
    ∧ split [':', 'a'] ':' = fullSplit ':' [':', 'a']
    ∧ join (split (['a'] ++ [':']) ':') [':'] false ≠ ['a'] ++ [':'] := by
  have h := split_trailing_delimiter_amended
  refine ⟨?_, ?_, ?_⟩
  · exact h.1 ['a', 'b'] ':'
  · exact h.2.2.1 [':', 'a'] ':' (by decide) (by decide)
  · exact h.2.2.2.2.2.2 ['a'] ':'
